import Mathlib

/-!
Verification development for the GST reconciliation application
(repository `GSTReconciliationApp`).

The repository ships the test-suite of the engine
(`test_settings.py`, `test_enhanced_reconciliation.py`, `test_reports.py`,
`test_indian_currency.py`) while the implementation modules
(`utils/helpers.py`, `utils/settings.py`, `utils/reports.py`,
`utils/reconciliation.py`) are not included.  Every definition below is
therefore a shallow embedding modelled from the natural-language
specification of those modules (and the observable contract fixed by the
test-suite), as its doc comment records.

Monetary amounts are embedded as rationals (`ℚ`), date differences as
integers (days), and pandas data frames as a column list together with
positional rows of cells.
-/

namespace GSTRecon

/-! ## Tolerance settings and derived-status helpers (`utils/helpers.py`,
`utils/settings.py`) -/

/-- Modelled from the spec: `utils/helpers.calculate_total_tax_difference`
is absent from `src/`.  Per §6 of the specification the applied-settings
step "derives `Total Tax Diff` (signed sum of per-tax-type diffs, not
absolute sum)": the difference of each tax type between the Books amounts
and the GSTR-2A amounts, summed with sign. -/
def calculate_total_tax_difference (bIgst bCgst bSgst gIgst gCgst gSgst : ℚ) : ℚ :=
  (bIgst - gIgst) + (bCgst - gCgst) + (bSgst - gSgst)

/-- Modelled from the spec: `utils/helpers.get_tax_diff_status` is absent
from `src/`.  Per §6: "`Tax Diff Status` (`"No Difference"` if
`|Total Tax Diff| <= taxAmountTolerance` else `"Has Difference"`)". -/
def get_tax_diff_status (totalDiff tolerance : ℚ) : String :=
  if |totalDiff| ≤ tolerance then "No Difference" else "Has Difference"

/-- Modelled from the spec: `utils/helpers.get_date_status` is absent from
`src/`.  Per §6, `Date Status` is derived "analogously using
`dateToleranceDays`": "Within Tolerance" when the absolute date difference
is at most the tolerance, else "Outside Tolerance". -/
def get_date_status (dateDiff toleranceDays : ℤ) : String :=
  if |dateDiff| ≤ toleranceDays then "Within Tolerance" else "Outside Tolerance"

/-- Modelled from the spec: `utils/helpers.get_tax_diff_status_with_status`
is absent from `src/`.  Per §6 the derived tax status is "`"N/A"` for
BooksOnly/GSTR2AOnly rows with no counterpart", otherwise computed from the
tolerance. -/
def get_tax_diff_status_with_status (totalDiff : ℚ) (status : String) (tolerance : ℚ) : String :=
  if status = "Books Only" ∨ status = "GSTR-2A Only" then "N/A"
  else get_tax_diff_status totalDiff tolerance

/-- Modelled from the spec: `utils/helpers.get_date_status_with_status` is
absent from `src/`.  Analogue of `get_tax_diff_status_with_status` for the
date status. -/
def get_date_status_with_status (dateDiff : ℤ) (status : String) (toleranceDays : ℤ) : String :=
  if status = "Books Only" ∨ status = "GSTR-2A Only" then "N/A"
  else get_date_status dateDiff toleranceDays

/-- Resolved tolerance configuration (spec §3, `ToleranceConfig`), with the
documented defaults. -/
structure ToleranceConfig where
  taxAmountTolerance : ℚ := 10
  dateToleranceDays : ℤ := 1
  nameSimilarityThreshold : ℕ := 70
  gstinSimilarityThreshold : ℕ := 80
  groupTaxTolerance : ℚ := 75
  caseSensitiveNames : Bool := false
deriving Repr, DecidableEq

/-- The default `ToleranceConfig` (spec §3 defaults: tax tolerance 10.0,
date tolerance 1 day, name threshold 70, identifier threshold 80, group tax
tolerance 75.0). -/
def defaultConfig : ToleranceConfig := {}

/-- A row of the reconciliation table as seen by the external
"apply settings" step (spec §6): per-tax-type differences, date difference
and the match status assigned by the engine. -/
structure ReconRow where
  igstDiff : ℚ
  cgstDiff : ℚ
  sgstDiff : ℚ
  dateDiff : ℤ
  status : String
deriving Repr, DecidableEq

/-- A `ReconRow` with the three derived columns appended. -/
structure AppliedRow where
  row : ReconRow
  totalTaxDiff : ℚ
  taxDiffStatus : String
  dateStatus : String
deriving Repr, DecidableEq

/-- Modelled from the spec: `utils.settings.apply_settings_to_reconciliation`
is absent from `src/`.  Per §6 the step derives `Total Tax Diff` (signed
sum of the per-tax-type diffs), `Tax Diff Status` and `Date Status`, the
two statuses being `"N/A"` for Books-Only / GSTR-2A-Only rows. -/
def apply_settings_to_row (cfg : ToleranceConfig) (r : ReconRow) : AppliedRow :=
  let total := r.igstDiff + r.cgstDiff + r.sgstDiff
  { row := r
    totalTaxDiff := total
    taxDiffStatus := get_tax_diff_status_with_status total r.status cfg.taxAmountTolerance
    dateStatus := get_date_status_with_status r.dateDiff r.status cfg.dateToleranceDays }

/-- Modelled from the spec: the table-level applied-settings step maps the
row-level derivation over the reconciliation table. -/
def apply_settings_to_reconciliation (cfg : ToleranceConfig) (rows : List ReconRow) :
    List AppliedRow :=
  rows.map (apply_settings_to_row cfg)

/-! ## Display currency formatting (`utils/helpers.format_indian_currency`) -/

/-- Input of the display formatter: the Python function receives `None`,
`NaN` (a missing pandas value) or a number. -/
inductive MoneyInput where
  | none_
  | nan
  | val (amount : ℚ)
deriving Repr, DecidableEq

/-- Fuelled version of the reversed-digit Indian grouping step; the fuel is
always at least the list length at every call site. -/
def indianGroupAuxF : ℕ → List Char → List Char
  | _, [] => []
  | 0, l => l
  | fuel + 1, l => ',' :: (l.take 2 ++ indianGroupAuxF fuel (l.drop 2))

/-- Reversed-digit Indian grouping: after the low three digits, insert a
comma before every further block of two digits (input and output are
reversed digit lists). -/
def indianGroupAux (l : List Char) : List Char :=
  indianGroupAuxF l.length l

/-- Digits of a natural number with Indian comma grouping
(last three digits, then groups of two): `1000 ↦ "1,000"`,
`10000 ↦ "10,000"`. -/
def indianGroupDigits (n : ℕ) : String :=
  let rev := (Nat.toDigits 10 n).reverse
  String.mk ((rev.take 3 ++ indianGroupAux (rev.drop 3)).reverse)

/-- Render a sub-unit count (cents) on exactly two digits. -/
def twoDecimalString (cents : ℕ) : String :=
  if cents < 10 then "0" ++ toString cents else toString cents

/-- The cents (two decimal digits) of a non-negative rational amount,
computed on the numerator and denominator with integer arithmetic. -/
def centsOf (q : ℚ) : ℕ :=
  ((100 * q.num) / (q.den : ℤ)).toNat % 100

/-- A non-negative amount rendered with Indian comma grouping and two
decimals: `1000 ↦ "1,000.00"`. -/
def indianCommaFormat (q : ℚ) : String :=
  indianGroupDigits q.floor.toNat ++ "." ++ twoDecimalString (centsOf q)

/-- A lakh- or crore-scaled value rendered without decimals when integral
and with two decimals otherwise: `1 ↦ "1"`, `3/2 ↦ "1.50"`, `10 ↦ "10"`. -/
def scaledUnitString (q : ℚ) : String :=
  let cents := centsOf q
  if cents = 0 then indianGroupDigits q.floor.toNat
  else indianGroupDigits q.floor.toNat ++ "." ++ twoDecimalString cents

/-- Modelled from the spec: `utils/helpers.format_indian_currency` is
absent from `src/` (display formatting is an external collaborator per
§1); behaviour fixed by its test expectations in
`test_indian_currency.py`: below one lakh the amount is comma-grouped with
two decimals, from one lakh it is expressed in lakh, from one crore in
crore. -/
def format_positive (q : ℚ) : String :=
  if q < 100000 then "₹" ++ indianCommaFormat q
  else if q < 10000000 then "₹" ++ scaledUnitString (q / 100000) ++ " lakh"
  else "₹" ++ scaledUnitString (q / 10000000) ++ " crore"

/-- Modelled from the spec: `utils/helpers.format_indian_currency` is
absent from `src/`; behaviour fixed by `test_indian_currency.py`: `None`,
`NaN` and `0` all render as `"₹0"`, negative amounts get a leading minus,
positive amounts go through `format_positive`. -/
def format_indian_currency : MoneyInput → String
  | .none_ => "₹0"
  | .nan => "₹0"
  | .val q =>
      if q = 0 then "₹0"
      else if q < 0 then "-" ++ format_positive (-q)
      else format_positive q

/-! ## Unmapped-identifier report (`utils/reports.py`) -/

/-- A cell of a pandas-style data frame: a string, a number, or a missing
value (`NaN`). -/
inductive Cell where
  | str (v : String)
  | num (v : ℚ)
  | nan
deriving Repr, DecidableEq

/-- A pandas-style data frame: a list of column names together with
positional rows of cells. -/
structure Frame where
  cols : List String
  rows : List (List Cell)
deriving Repr, DecidableEq

/-- Whitespace strip on the underlying character list (the analogue of
Python `.strip()`, kept kernel-computable). -/
def stripStr (s : String) : String :=
  String.mk (((s.data.dropWhile (· == ' ')).reverse.dropWhile (· == ' ')).reverse)

/-- The cell of a row under a column name; a missing column or a short row
reads as `NaN`. -/
def getCell (f : Frame) (row : List Cell) (c : String) : Cell :=
  match f.cols.findIdx? (· == c) with
  | some i => row.getD i Cell.nan
  | none => Cell.nan

/-- String content of a cell; non-string cells read as the empty string. -/
def cellString : Cell → String
  | .str v => v
  | .num _ => ""
  | .nan => ""

/-- Numeric content of a cell; non-numeric cells read as zero. -/
def cellNum : Cell → ℚ
  | .num v => v
  | .str _ => 0
  | .nan => 0

/-- The input columns the unmapped-identifier report needs. -/
def requiredReportCols : List String :=
  ["Source Name", "Supplier GSTIN", "Supplier Trade Name", "Supplier Legal Name",
   "Total IGST Amount", "Total CGST Amount", "Total SGST Amount"]

/-- The fixed column list of the unmapped-identifier report. -/
def reportColumns : List String :=
  ["GST Number", "Trade Name", "Legal Name", "Count",
   "Total IGST Amount", "Total CGST Amount", "Total SGST Amount"]

/-- One aggregate row of the unmapped-identifier report. -/
structure GstReportRow where
  gstNumber : String
  tradeName : String
  legalName : String
  count : ℕ
  igst : ℚ
  cgst : ℚ
  sgst : ℚ
deriving Repr, DecidableEq

/-- The unmapped-identifier report: its column list and aggregate rows. -/
structure GstReport where
  cols : List String
  rows : List GstReportRow
deriving Repr, DecidableEq

/-- The empty, well-typed report: no rows, full expected column list. -/
def emptyGstReport : GstReport := { cols := reportColumns, rows := [] }

/-- Validity of a supplier identifier for the report: exactly 15
characters (spec §6: "per distinct valid (15-character) supplier
identifier"). -/
def validGstin (g : String) : Bool := g.length == 15

/-- The trimmed supplier identifier of a frame row. -/
def frameGstin (f : Frame) (row : List Cell) : String :=
  stripStr (cellString (getCell f row "Supplier GSTIN"))

/-- The rows of a frame coming from one source ledger. -/
def sourceRows (f : Frame) (src : String) : List (List Cell) :=
  f.rows.filter (fun r => cellString (getCell f r "Source Name") == src)

/-- All supplier identifiers appearing on GSTR-2A rows. -/
def gstr2aIds (f : Frame) : List String :=
  (sourceRows f "GSTR-2A").map (frameGstin f)

/-- All supplier identifiers appearing on Books rows. -/
def booksIds (f : Frame) : List String :=
  (sourceRows f "Books").map (frameGstin f)

/-- Whether the frame carries every column the report needs. -/
def hasRequiredCols (f : Frame) : Bool :=
  requiredReportCols.all (fun c => f.cols.contains c)

/-- The distinct valid identifiers present in GSTR-2A but absent from
Books. -/
def unmappedIds (f : Frame) : List String :=
  ((gstr2aIds f).filter (fun g => validGstin g && !(booksIds f).contains g)).dedup

/-- The GSTR-2A rows of a frame carrying a given supplier identifier. -/
def gstinRows (f : Frame) (g : String) : List (List Cell) :=
  (sourceRows f "GSTR-2A").filter (fun r => frameGstin f r == g)

/-- The aggregate report row of one unmapped identifier: record count,
summed tax amounts, and the first non-empty cleaned names. -/
def mkReportRow (f : Frame) (g : String) : GstReportRow :=
  let rs := gstinRows f g
  { gstNumber := g
    tradeName :=
      ((rs.map (fun r => stripStr (cellString (getCell f r "Supplier Trade Name")))).filter
        (fun s => !s.data.isEmpty)).headD ""
    legalName :=
      ((rs.map (fun r => stripStr (cellString (getCell f r "Supplier Legal Name")))).filter
        (fun s => !s.data.isEmpty)).headD ""
    count := rs.length
    igst := (rs.map (fun r => cellNum (getCell f r "Total IGST Amount"))).sum
    cgst := (rs.map (fun r => cellNum (getCell f r "Total CGST Amount"))).sum
    sgst := (rs.map (fun r => cellNum (getCell f r "Total SGST Amount"))).sum }

/-- Modelled from the spec: `utils/reports.get_unique_unmapped_gst_report`
is absent from `src/`.  Per §6 it "independently derives, per distinct
valid (15-character) supplier identifier present in GSTR-2A but absent
from Books, an aggregate record count and summed tax amounts", and per §7
a `None` working set, an empty table or missing required columns yield an
empty, well-typed result. -/
def get_unique_unmapped_gst_report : Option Frame → GstReport
  | none => emptyGstReport
  | some f =>
      if !hasRequiredCols f then emptyGstReport
      else if f.rows.isEmpty then emptyGstReport
      else { cols := reportColumns, rows := (unmappedIds f).map (mkReportRow f) }

/-- Summary statistics over the unmapped-identifier report. -/
structure ReportSummary where
  total_unmapped : ℕ
  total_records : ℕ
  with_trade_name : ℕ
  with_legal_name : ℕ
  with_both_names : ℕ
  unique_state_codes : ℕ
  total_igst_amount : ℚ
  total_cgst_amount : ℚ
  total_sgst_amount : ℚ
  avg_records_per_gst : ℚ
  max_records_per_gst : ℕ
deriving Repr, DecidableEq

/-- The all-zero summary returned for malformed or empty inputs. -/
def zeroSummary : ReportSummary := ⟨0, 0, 0, 0, 0, 0, 0, 0, 0, 0, 0⟩

/-- Modelled from the spec: `utils/reports.get_report_summary` is absent
from `src/`.  It summarises the unmapped-identifier report; malformed or
empty inputs yield the all-zero summary (spec §7: "the engine returns an
empty, well-typed result rather than raising"). -/
def get_report_summary (x : Option Frame) : ReportSummary :=
  let rep := get_unique_unmapped_gst_report x
  if rep.rows.isEmpty then zeroSummary
  else
    { total_unmapped := rep.rows.length
      total_records := (rep.rows.map (·.count)).sum
      with_trade_name := (rep.rows.filter (fun r => !r.tradeName.data.isEmpty)).length
      with_legal_name := (rep.rows.filter (fun r => !r.legalName.data.isEmpty)).length
      with_both_names :=
        (rep.rows.filter (fun r => !r.tradeName.data.isEmpty && !r.legalName.data.isEmpty)).length
      unique_state_codes :=
        ((rep.rows.map (fun r => String.mk (r.gstNumber.data.take 2))).dedup).length
      total_igst_amount := (rep.rows.map (·.igst)).sum
      total_cgst_amount := (rep.rows.map (·.cgst)).sum
      total_sgst_amount := (rep.rows.map (·.sgst)).sum
      avg_records_per_gst := ((rep.rows.map (·.count)).sum : ℚ) / (rep.rows.length : ℚ)
      max_records_per_gst := (rep.rows.map (·.count)).foldr max 0 }

/-- The six-row sample table of `test_reports.py` (`setUp`): identifier
`33IJKL9012L5M3` appears once in GSTR-2A and never in Books. -/
def sampleFrame : Frame :=
  { cols := ["Source Name", "Supplier GSTIN", "Supplier Trade Name",
      "Supplier Legal Name", "Invoice Number", "Total IGST Amount",
      "Total CGST Amount", "Total SGST Amount"]
    rows :=
      [[.str "Books", .str "27AAABC1234C1Z5", .str "ABC Traders", .str "ABC Pvt Ltd",
        .str "INV001", .num 1000, .num 500, .num 500],
       [.str "Books", .str "27AAABC1234C1Z5", .str "ABC Traders", .str "ABC Pvt Ltd",
        .str "INV002", .num 2000, .num 1000, .num 1000],
       [.str "GSTR-2A", .str "27AAABC1234C1Z5", .str "ABC Traders", .str "ABC Pvt Ltd",
        .str "INV001", .num 1000, .num 500, .num 500],
       [.str "GSTR-2A", .str "29DEFGH5678H2Z9", .str "DEF Suppliers", .str "DEF Corporation",
        .str "INV003", .num 1500, .num 750, .num 750],
       [.str "GSTR-2A", .str "33IJKL9012L5M3", .str "IJK Enterprises", .str "IJK Limited",
        .str "INV004", .num 3000, .num 1500, .num 1500],
       [.str "Books", .str "29DEFGH5678H2Z9", .str "DEF Suppliers", .str "DEF Corporation",
        .str "INV003", .num 1500, .num 750, .num 750]] }

/-- The incomplete table of
`test_get_unique_unmapped_gst_report_missing_columns`: only the source and
identifier columns are present. -/
def malformedFrame : Frame :=
  { cols := ["Source Name", "Supplier GSTIN"]
    rows :=
      [[.str "Books", .str "27AAABC1234C1Z5"],
       [.str "GSTR-2A", .str "29DEFGH5678H2Z9"]] }

/-- A variant of the sample table whose unmapped GSTR-2A identifier
really has 15 characters. -/
def witnessFrame : Frame :=
  { cols := ["Source Name", "Supplier GSTIN", "Supplier Trade Name",
      "Supplier Legal Name", "Total IGST Amount", "Total CGST Amount",
      "Total SGST Amount"]
    rows :=
      [[.str "Books", .str "27AAABC1234C1Z5", .str "ABC Traders", .str "ABC Pvt Ltd",
        .num 1000, .num 500, .num 500],
       [.str "GSTR-2A", .str "27AAABC1234C1Z5", .str "ABC Traders", .str "ABC Pvt Ltd",
        .num 1000, .num 500, .num 500],
       [.str "GSTR-2A", .str "33IJKLM9012L5M3", .str "IJK Enterprises", .str "IJK Limited",
        .num 3000, .num 1500, .num 1500]] }

/-- A table that carries every required column but no rows. -/
def emptyRowsFrame : Frame :=
  { cols := ["Source Name", "Supplier GSTIN", "Supplier Trade Name",
      "Supplier Legal Name", "Invoice Number", "Total IGST Amount",
      "Total CGST Amount", "Total SGST Amount"]
    rows := [] }

/-! ## The reconciliation engine (`utils/reconciliation.py`) -/

/-- Which ledger a record comes from. -/
inductive Source where
  | books
  | gstr2a
deriving Repr, DecidableEq

/-- One invoice line of either ledger (spec §3, `LedgerRecord`); monetary
fields are rationals, dates are day numbers. -/
structure LedgerRecord where
  source : Source
  supplierId : String
  legalName : String
  tradeName : String
  invoiceNumber : String
  invoiceDate : ℤ
  booksDate : ℤ
  taxableValue : ℚ
  igst : ℚ
  cgst : ℚ
  sgst : ℚ
  invoiceValue : ℚ
deriving Repr, DecidableEq

/-- Uppercase a string on its character list. -/
def upStr (s : String) : String := String.mk (s.data.map Char.toUpper)

/-- Modelled from the spec (§4.1, Identity Normalizer, absent from
`src/`): a supplier identifier is normalized by trimming and
case-folding. -/
def normId (s : String) : String := upStr (stripStr s)

/-- Modelled from the spec (§4.1): an identifier is valid only if it is
exactly 15 alphanumeric characters. -/
def validId (s : String) : Bool := s.length == 15 && s.data.all (·.isAlphanum)

/-- Multiset character overlap of two character lists (the basis of a
SequenceMatcher-style similarity ratio). -/
def commonCount : List Char → List Char → ℕ
  | [], _ => 0
  | c :: cs, ds =>
      if ds.contains c then 1 + commonCount cs (ds.erase c)
      else commonCount cs ds

/-- Modelled from the spec (§4.2 and §9): a pluggable 0–100 string
similarity; the exact metric is explicitly non-binding ("implementers must
choose a standard string-similarity metric"), only the threshold behaviour
matters.  We use the character-overlap ratio `200·common/(|a|+|b|)`,
capped at 99 for unequal strings so that a score of 100 characterizes
equality (spec §3 invariant). -/
def simRatio (a b : String) : ℕ :=
  if a == b then 100
  else if a.data.isEmpty || b.data.isEmpty then 0
  else min ((200 * commonCount a.data b.data) / (a.data.length + b.data.length)) 99

/-- Modelled from the spec (§4.2, §3): identifier similarity — 100 iff the
identifiers are identical after normalization, 0 when either side is
invalid, otherwise the similarity ratio. -/
def gstinScore (a b : String) : ℕ :=
  if normId a == normId b then 100
  else if !validId (normId a) || !validId (normId b) then 0
  else simRatio (normId a) (normId b)

/-- Modelled from the spec (§4.2): name similarity — an absent
(empty-after-trim) name on either side yields 0; otherwise the similarity
ratio of the (case-folded unless configured otherwise) names. -/
def nameScore (cfg : ToleranceConfig) (a b : String) : ℕ :=
  let a' := if cfg.caseSensitiveNames then stripStr a else upStr (stripStr a)
  let b' := if cfg.caseSensitiveNames then stripStr b else upStr (stripStr b)
  if a'.data.isEmpty || b'.data.isEmpty then 0 else simRatio a' b'

/-- The three similarity scores of a candidate pairing (spec §3,
`MatchAnnotation`). -/
structure Scores where
  gstin : ℕ
  legal : ℕ
  trade : ℕ
deriving Repr, DecidableEq

/-- The similarity scores of a Books/GSTR-2A record pair. -/
def computeScores (cfg : ToleranceConfig) (b g : LedgerRecord) : Scores :=
  { gstin := gstinScore b.supplierId g.supplierId
    legal := nameScore cfg b.legalName g.legalName
    trade := nameScore cfg b.tradeName g.tradeName }

/-- The identity-acceptance rule (spec §4.2): accept a pairing only when
the identifier score or one of the name scores meets its threshold. -/
def acceptB (cfg : ToleranceConfig) (s : Scores) : Bool :=
  (cfg.gstinSimilarityThreshold ≤ s.gstin) || (cfg.nameSimilarityThreshold ≤ s.legal) ||
    (cfg.nameSimilarityThreshold ≤ s.trade)

/-- The signed total tax of a record. -/
def totalTax (r : LedgerRecord) : ℚ := r.igst + r.cgst + r.sgst

/-- The date difference of a candidate pair, in days. -/
def dateDiff (b g : LedgerRecord) : ℤ := b.invoiceDate - g.invoiceDate

/-- The seven-state classification vocabulary of the pipeline (spec §4.3),
plus the initial state. -/
inductive Status where
  | unprocessed
  | exactMatch
  | partialMatch
  | groupMatch
  | taxBasedGroupMatch
  | dataEntrySwapMatch
  | booksOnly
  | gstr2aOnly
deriving Repr, DecidableEq

/-- Per-record output of the pipeline (spec §3, `MatchAnnotation`). -/
structure MatchAnnotation where
  status : Status
  scores : Option Scores := none
  groupId : Option ℕ := none
  matchId : Option ℕ := none
  taxDiff : Option ℚ := none
deriving Repr, DecidableEq

/-- Stage-1 predicate (spec §4.3): identifier equal, invoice number equal,
all monetary fields equal, zero date difference. -/
def exactPred (b g : LedgerRecord) : Bool :=
  (normId b.supplierId == normId g.supplierId) &&
  (b.invoiceNumber == g.invoiceNumber) &&
  decide (b.taxableValue = g.taxableValue) && decide (b.igst = g.igst) &&
  decide (b.cgst = g.cgst) && decide (b.sgst = g.sgst) &&
  decide (b.invoiceValue = g.invoiceValue) && decide (dateDiff b g = 0)

/-- Stage-2 predicate (spec §4.3): identity accepted per §4.2 (identifier
equality is the special case scoring 100), signed total-tax difference
within `taxAmountTolerance`, date difference within `dateToleranceDays`. -/
def partialPred (cfg : ToleranceConfig) (b g : LedgerRecord) : Bool :=
  acceptB cfg (computeScores cfg b g) &&
  decide (|totalTax b - totalTax g| ≤ cfg.taxAmountTolerance) &&
  decide (|dateDiff b g| ≤ cfg.dateToleranceDays)

/-- Stage-5 predicate (spec §4.3): same key, but the taxable value and the
IGST amount have been transposed between columns. -/
def swapPred (cfg : ToleranceConfig) (b g : LedgerRecord) : Bool :=
  (normId b.supplierId == normId g.supplierId) &&
  (b.invoiceNumber == g.invoiceNumber) &&
  decide (b.taxableValue = g.igst) && decide (b.igst = g.taxableValue) &&
  decide (|dateDiff b g| ≤ cfg.dateToleranceDays)

/-- Remove the first element satisfying `p`, returning it and the rest. -/
def extractFirst (p : α → Bool) : List α → Option (α × List α)
  | [] => none
  | x :: xs =>
      if p x then some (x, xs)
      else
        match extractFirst p xs with
        | some (y, ys) => some (y, x :: ys)
        | none => none

/-- Greedy one-to-one matching: each Books record takes the first
still-available GSTR-2A record satisfying the predicate.  Returns the
pairs and the unmatched leftovers of both sides. -/
def matchPairs (pred : LedgerRecord → LedgerRecord → Bool) :
    List LedgerRecord → List LedgerRecord →
    List (LedgerRecord × LedgerRecord) × List LedgerRecord × List LedgerRecord
  | [], gs => ([], [], gs)
  | b :: bs, gs =>
      match extractFirst (pred b) gs with
      | some (g, gs') =>
          let r := matchPairs pred bs gs'
          ((b, g) :: r.1, r.2.1, r.2.2)
      | none =>
          let r := matchPairs pred bs gs
          (r.1, b :: r.2.1, r.2.2)

/-- Stage-3 grouping key (spec §4.3): normalized identifier and invoice
number. -/
def groupKey (a b : LedgerRecord) : Bool :=
  (normId a.supplierId == normId b.supplierId) && (a.invoiceNumber == b.invoiceNumber)

/-- Stage-4 grouping key (spec §4.3): normalized identifier only (the
invoice-number key has already failed for these records). -/
def taxGroupKey (a b : LedgerRecord) : Bool :=
  normId a.supplierId == normId b.supplierId

/-- Acceptance condition of one group (spec §4.3 stages 3–4): the other
side has at least two key-matching records, the single-side record is the
only one of its key in its own pool, the identity-acceptance rule holds
against every member, and the aggregate amount of the many side is within
tolerance of the single record's amount. -/
def groupOnce (cfg : ToleranceConfig) (key : LedgerRecord → LedgerRecord → Bool)
    (amt : LedgerRecord → ℚ) (tol : ℚ) (pool0 : List LedgerRecord)
    (s : LedgerRecord) (ms : List LedgerRecord) : Bool :=
  2 ≤ (ms.filter (key s)).length &&
  ((pool0.filter (fun s' => key s s')).length == 1) &&
  (ms.filter (key s)).all (fun m => acceptB cfg (computeScores cfg s m)) &&
  decide (|((ms.filter (key s)).map amt).sum - amt s| ≤ tol)

/-- Modelled from the spec (§4.3 stages 3–4): grouping pass.  Each
single-side record whose group is accepted by `groupOnce` is annotated
together with the key-matching members of the other side; all members get
the group status, the pairwise scores, and one shared group id. -/
def groupStage (cfg : ToleranceConfig) (key : LedgerRecord → LedgerRecord → Bool)
    (amt : LedgerRecord → ℚ) (tol : ℚ) (stat : Status) (pool0 : List LedgerRecord) :
    List LedgerRecord → List LedgerRecord → ℕ →
    List (LedgerRecord × MatchAnnotation) × List LedgerRecord × List LedgerRecord × ℕ
  | [], ms, n => ([], [], ms, n)
  | s :: ss, ms, n =>
      if groupOnce cfg key amt tol pool0 s ms then
        let mem := ms.filter (key s)
        let r := groupStage cfg key amt tol stat pool0 ss (ms.filter (fun m => !key s m)) (n + 1)
        ((s, ⟨stat, some (computeScores cfg s (mem.headD s)), some n, none, none⟩) ::
            mem.map (fun m => (m, ⟨stat, some (computeScores cfg s m), some n, none, none⟩)) ++
            r.1,
         r.2.1, r.2.2.1, r.2.2.2)
      else
        let r := groupStage cfg key amt tol stat pool0 ss ms n
        (r.1, s :: r.2.1, r.2.2.1, r.2.2.2)

/-- Annotate the 1:1 pairs of one stage with a status, the pair's scores,
sequential match ids, and the signed tax difference. -/
def annotatePairs (stat : Status) (cfg : ToleranceConfig) :
    ℕ → List (LedgerRecord × LedgerRecord) → List (LedgerRecord × MatchAnnotation)
  | _, [] => []
  | n, p :: ps =>
      (p.1, ⟨stat, some (computeScores cfg p.1 p.2), none, some n,
        some (totalTax p.1 - totalTax p.2)⟩) ::
      (p.2, ⟨stat, some (computeScores cfg p.1 p.2), none, some n,
        some (totalTax p.1 - totalTax p.2)⟩) ::
      annotatePairs stat cfg (n + 1) ps

/-- Annotate leftover records with a residual (Books-Only / GSTR-2A-Only)
status. -/
def annotateOnly (stat : Status) (rs : List LedgerRecord) :
    List (LedgerRecord × MatchAnnotation) :=
  rs.map (fun r => (r, ⟨stat, none, none, none, none⟩))

/-- The engine state: the annotated table and the id counters. -/
structure ReconState where
  table : List (LedgerRecord × MatchAnnotation)
  nextGroupId : ℕ
  nextMatchId : ℕ
deriving Repr, DecidableEq

/-- Modelled from the spec: `utils/reconciliation.GSTReconciliation` is
absent from `src/`.  The baseline classification pipeline (spec §4.3):
stage 1 exact matching, stage 2 partial matching, stage 3 group matching
in both orientations, stage 4 tax-based group matching in both
orientations, stage 5 data-entry-swap matching, and residual Books-Only /
GSTR-2A-Only classification. -/
def runPipeline (cfg : ToleranceConfig) (input : List LedgerRecord) : ReconState :=
  let bs := input.filter (fun r => decide (r.source = Source.books))
  let gs := input.filter (fun r => decide (r.source = Source.gstr2a))
  let e := matchPairs exactPred bs gs
  let p := matchPairs (partialPred cfg) e.2.1 e.2.2
  let g1 := groupStage cfg groupKey (fun r => r.invoiceValue) cfg.taxAmountTolerance
    .groupMatch p.2.1 p.2.1 p.2.2 0
  let g2 := groupStage cfg groupKey (fun r => r.invoiceValue) cfg.taxAmountTolerance
    .groupMatch g1.2.2.1 g1.2.2.1 g1.2.1 g1.2.2.2
  let t1 := groupStage cfg taxGroupKey totalTax cfg.groupTaxTolerance
    .taxBasedGroupMatch g2.2.2.1 g2.2.2.1 g2.2.1 g2.2.2.2
  let t2 := groupStage cfg taxGroupKey totalTax cfg.groupTaxTolerance
    .taxBasedGroupMatch t1.2.2.1 t1.2.2.1 t1.2.1 t1.2.2.2
  let w := matchPairs (swapPred cfg) t2.2.2.1 t2.2.1
  { table :=
      annotatePairs .exactMatch cfg 0 e.1 ++
      annotatePairs .partialMatch cfg e.1.length p.1 ++
      g1.1 ++ g2.1 ++ t1.1 ++ t2.1 ++
      annotatePairs .dataEntrySwapMatch cfg (e.1.length + p.1.length) w.1 ++
      annotateOnly .booksOnly w.2.1 ++
      annotateOnly .gstr2aOnly w.2.2
    nextGroupId := t2.2.2.2
    nextMatchId := e.1.length + p.1.length + w.1.length }

/-- The number of table entries carrying a given status. -/
def countStatus (st : List (LedgerRecord × MatchAnnotation)) (s : Status) : ℕ :=
  (st.filter (fun e => decide (e.2.status = s))).length

/-- Output of `get_results` (spec §6): the per-class counts and the full
annotated table. -/
structure Results where
  matched_count : ℕ
  partial_count : ℕ
  group_count : ℕ
  data_entry_swap_count : ℕ
  tax_based_group_count : ℕ
  books_only_count : ℕ
  gstr2a_only_count : ℕ
  final_report : List (LedgerRecord × MatchAnnotation)
deriving Repr, DecidableEq

/-- Modelled from the spec (§6, `getResults`): a pure projection of the
current annotation state. -/
def get_results (st : ReconState) : Results :=
  { matched_count := countStatus st.table .exactMatch
    partial_count := countStatus st.table .partialMatch
    group_count := countStatus st.table .groupMatch
    data_entry_swap_count := countStatus st.table .dataEntrySwapMatch
    tax_based_group_count := countStatus st.table .taxBasedGroupMatch
    books_only_count := countStatus st.table .booksOnly
    gstr2a_only_count := countStatus st.table .gstr2aOnly
    final_report := st.table }

/-- One heuristic recommendation of the planner (spec §4.4). -/
structure Recommendation where
  pattern : String
  priority : String
  description : String
  estimated_matches : ℕ
deriving Repr, DecidableEq

/-- The analysis record returned by the planner (spec §6,
`runIntelligentEnhancedMatching`). -/
structure EnhancedAnalysis where
  books_only_count : ℕ
  gstr2a_only_count : ℕ
  partials_with_diff_count : ℕ
  potential_gstin_inv_groups : ℕ
  recommendations : List Recommendation
deriving Repr, DecidableEq

/-- The records of the Books-Only entries of a table. -/
def onlyBooksRecords (st : List (LedgerRecord × MatchAnnotation)) : List LedgerRecord :=
  (st.filter (fun e => decide (e.2.status = Status.booksOnly))).map (·.1)

/-- The records of the GSTR-2A-Only entries of a table. -/
def onlyGstr2aRecords (st : List (LedgerRecord × MatchAnnotation)) : List LedgerRecord :=
  (st.filter (fun e => decide (e.2.status = Status.gstr2aOnly))).map (·.1)

/-- The count of partial matches carrying a nonzero tax difference
(spec §4.4). -/
def partialsWithDiff (st : List (LedgerRecord × MatchAnnotation)) : ℕ :=
  (st.filter (fun e =>
    decide (e.2.status = Status.partialMatch) &&
    match e.2.taxDiff with
    | some d => decide (d ≠ 0)
    | none => false)).length

/-- The count of (identifier, invoice-number) keys appearing among the
Books-Only records and also among the GSTR-2A-Only records (spec §4.4,
"a proxy for missed group opportunities"). -/
def potentialGroups (st : List (LedgerRecord × MatchAnnotation)) : ℕ :=
  let bk := ((onlyBooksRecords st).map (fun r => (normId r.supplierId, r.invoiceNumber))).dedup
  let gk := (onlyGstr2aRecords st).map (fun r => (normId r.supplierId, r.invoiceNumber))
  (bk.filter (fun k => gk.contains k)).length

/-- The planner's ranked recommendation list, built from its counts
(spec §4.4); priorities derive from estimated yield against remaining
unmatched volume. -/
def mkRecommendations (unmatched potential partials : ℕ) : List Recommendation :=
  (if 0 < potential then
    [⟨"cross-side invoice aggregation",
      if unmatched ≤ 2 * potential then "High" else "Medium",
      "Group one-to-many invoice splits sharing identifier and invoice number",
      potential⟩]
  else []) ++
  (if 0 < partials then
    [⟨"cross-side tax aggregation",
      if unmatched ≤ 2 * partials then "High" else "Medium",
      "Aggregate tax amounts across invoice-number mismatches",
      partials⟩]
  else []) ++
  [⟨"field-swap detection", "Low",
    "Detect transposed taxable and tax amount columns", 0⟩]

/-- The planner's executed additional pass (spec §4.4): one Group-Match
pass and one Tax-Based-Group pass over the residual records, each in both
orientations.  Returns the newly annotated group entries, the remaining
Books and GSTR-2A leftovers, and the next group id. -/
def plannerPass (cfg : ToleranceConfig) (onlyB onlyG : List LedgerRecord) (n : ℕ) :
    List (LedgerRecord × MatchAnnotation) × List LedgerRecord × List LedgerRecord × ℕ :=
  let o1 := groupStage cfg groupKey (fun r => r.invoiceValue) cfg.taxAmountTolerance
    .groupMatch onlyB onlyB onlyG n
  let o2 := groupStage cfg groupKey (fun r => r.invoiceValue) cfg.taxAmountTolerance
    .groupMatch o1.2.2.1 o1.2.2.1 o1.2.1 o1.2.2.2
  let o3 := groupStage cfg taxGroupKey totalTax cfg.groupTaxTolerance
    .taxBasedGroupMatch o2.2.2.1 o2.2.2.1 o2.2.1 o2.2.2.2
  let o4 := groupStage cfg taxGroupKey totalTax cfg.groupTaxTolerance
    .taxBasedGroupMatch o3.2.2.1 o3.2.2.1 o3.2.1 o3.2.2.2
  (o1.1 ++ o2.1 ++ o3.1 ++ o4.1, o4.2.2.1, o4.2.1, o4.2.2.2)

/-- Modelled from the spec: `run_intelligent_enhanced_matching` of
`utils/reconciliation.py` is absent from `src/`.  Per §4.4 the planner
counts the Books-Only, GSTR-2A-Only and partial-with-difference
populations, reports ranked recommendations, and executes one additional
Group / Tax-Based Group pass restricted to the scanned residual
population, respecting every invariant (in particular, records already
carrying a 1:1 match status are never reopened — spec §3). -/
def run_intelligent_enhanced_matching (cfg : ToleranceConfig) (st : ReconState) :
    EnhancedAnalysis × ReconState :=
  let onlyB := onlyBooksRecords st.table
  let onlyG := onlyGstr2aRecords st.table
  let rest := st.table.filter (fun e =>
    !(decide (e.2.status = Status.booksOnly) || decide (e.2.status = Status.gstr2aOnly)))
  let pass := plannerPass cfg onlyB onlyG st.nextGroupId
  (⟨onlyB.length, onlyG.length, partialsWithDiff st.table, potentialGroups st.table,
    mkRecommendations (onlyB.length + onlyG.length) (potentialGroups st.table)
      (partialsWithDiff st.table)⟩,
   { table := rest ++ pass.1 ++
       annotateOnly .booksOnly pass.2.1 ++ annotateOnly .gstr2aOnly pass.2.2.1
     nextGroupId := pass.2.2.2
     nextMatchId := st.nextMatchId })

/-- The state after one planner run (spec §6: the planner updates the
internally held annotation state consumed by subsequent `getResults`
calls). -/
def afterPlanner (cfg : ToleranceConfig) (st : ReconState) : ReconState :=
  (run_intelligent_enhanced_matching cfg st).2

/-- The acceptance rule (spec §4.2) on an annotation's stored scores, at
the documented thresholds (identifier 80, names 70): the scores exist and
at least one meets its threshold. -/
def annAccepted : Option Scores → Prop
  | some s => 80 ≤ s.gstin ∨ 70 ≤ s.legal ∨ 70 ≤ s.trade
  | none => False

/-- A Books record of the strict-matching-rules test (scenario 4,
invoice `INV007`). -/
def bW4 : LedgerRecord :=
  ⟨.books, "27AABCA1234A1Z5", "ABC Company Limited", "ABC Corp", "INV007",
    0, 0, 10000, 1800, 0, 0, 11800⟩

/-- The matching GSTR-2A record of scenario 4 (invoice `INV008`): same
identifier, completely different names, equal amounts and dates. -/
def gW4 : LedgerRecord :=
  ⟨.gstr2a, "27AABCA1234A1Z5", "Different Legal Name", "Different Trade Name",
    "INV008", 0, 0, 10000, 1800, 0, 0, 11800⟩

/-- The partial-match annotation the pipeline assigns to the scenario-4
pair. -/
def pAnnW : MatchAnnotation :=
  ⟨.partialMatch, some (computeScores defaultConfig bW4 gW4), none, some 0,
    some (totalTax bW4 - totalTax gW4)⟩

/-- A Books record with identifier `27AABCA1234A1Z5` and tax 1800. -/
def bX : LedgerRecord :=
  ⟨.books, "27AABCA1234A1Z5", "ABC Company Limited", "ABC Corp", "INV001",
    0, 0, 10000, 1800, 0, 0, 11800⟩

/-- A GSTR-2A record with the same identifier as `bX` but entirely
different names and amounts far outside every tolerance. -/
def gX : LedgerRecord :=
  ⟨.gstr2a, "27AABCA1234A1Z5", "XYZ Enterprises Pvt Ltd", "XYZ Ltd", "INV002",
    0, 0, 777, 5000, 0, 0, 5777⟩

/-- The acceptance-rule soundness invariant over a table: every entry
classified Partial / Group / Tax-Based Group carries stored scores that
pass the acceptance rule. -/
def TableAccepted (cfg : ToleranceConfig) (l : List (LedgerRecord × MatchAnnotation)) : Prop :=
  ∀ e ∈ l, (e.2.status = Status.partialMatch ∨ e.2.status = Status.groupMatch ∨
      e.2.status = Status.taxBasedGroupMatch) →
    ∃ sc, e.2.scores = some sc ∧ acceptB cfg sc = true

/-! ## Structural lemmas about the matching stages -/

theorem extractFirst_some_pred {α} {p : α → Bool} {l : List α} {y : α} {ys : List α}
    (h : extractFirst p l = some (y, ys)) : p y = true := by
  induction l generalizing y ys with
  | nil => simp [extractFirst] at h
  | cons x xs ih =>
      rw [extractFirst] at h
      by_cases hx : p x
      · rw [if_pos hx] at h
        simp only [Option.some.injEq, Prod.mk.injEq] at h
        rw [← h.1]
        exact hx
      · rw [if_neg hx] at h
        cases hrec : extractFirst p xs with
        | none => rw [hrec] at h; simp at h
        | some v =>
            obtain ⟨y', ys'⟩ := v
            rw [hrec] at h
            simp only [Option.some.injEq, Prod.mk.injEq] at h
            rw [← h.1]
            exact ih hrec

theorem extractFirst_some_subset {α} {p : α → Bool} {l : List α} {y : α} {ys : List α}
    (h : extractFirst p l = some (y, ys)) : ∀ x ∈ ys, x ∈ l := by
  induction l generalizing y ys with
  | nil => simp [extractFirst] at h
  | cons x xs ih =>
      rw [extractFirst] at h
      by_cases hx : p x
      · rw [if_pos hx] at h
        simp only [Option.some.injEq, Prod.mk.injEq] at h
        intro z hz
        rw [← h.2] at hz
        exact List.mem_cons_of_mem _ hz
      · rw [if_neg hx] at h
        cases hrec : extractFirst p xs with
        | none => rw [hrec] at h; simp at h
        | some v =>
            obtain ⟨y', ys'⟩ := v
            rw [hrec] at h
            simp only [Option.some.injEq, Prod.mk.injEq] at h
            intro z hz
            rw [← h.2] at hz
            rcases List.mem_cons.mp hz with hzx | hz'
            · rw [hzx]; exact List.mem_cons_self _ _
            · exact List.mem_cons_of_mem _ (ih hrec z hz')

theorem extractFirst_none {α} {p : α → Bool} {l : List α}
    (h : extractFirst p l = none) : ∀ x ∈ l, p x = false := by
  induction l with
  | nil => intro x hx; simp at hx
  | cons x xs ih =>
      rw [extractFirst] at h
      by_cases hx : p x
      · rw [if_pos hx] at h; simp at h
      · rw [if_neg hx] at h
        cases hrec : extractFirst p xs with
        | none =>
            intro z hz
            rcases List.mem_cons.mp hz with hzx | hz'
            · rw [hzx]; exact Bool.eq_false_iff.mpr hx
            · exact ih hrec z hz'
        | some v =>
            obtain ⟨y', ys'⟩ := v
            rw [hrec] at h
            simp at h

theorem extractFirst_some_length {α} {p : α → Bool} {l : List α} {y : α} {ys : List α}
    (h : extractFirst p l = some (y, ys)) : ys.length + 1 = l.length := by
  induction l generalizing y ys with
  | nil => simp [extractFirst] at h
  | cons x xs ih =>
      rw [extractFirst] at h
      by_cases hx : p x
      · rw [if_pos hx] at h
        simp only [Option.some.injEq, Prod.mk.injEq] at h
        rw [← h.2]
        simp
      · rw [if_neg hx] at h
        cases hrec : extractFirst p xs with
        | none => rw [hrec] at h; simp at h
        | some v =>
            obtain ⟨y', ys'⟩ := v
            rw [hrec] at h
            simp only [Option.some.injEq, Prod.mk.injEq] at h
            have := ih hrec
            rw [← h.2]
            simp only [List.length_cons]
            omega

theorem matchPairs_leftB_subset {pred : LedgerRecord → LedgerRecord → Bool}
    {bs gs : List LedgerRecord} :
    ∀ x ∈ (matchPairs pred bs gs).2.1, x ∈ bs := by
  induction bs generalizing gs with
  | nil => intro x hx; simp [matchPairs] at hx
  | cons b bs ih =>
      intro x hx
      rw [matchPairs] at hx
      cases hrec : extractFirst (pred b) gs with
      | some v =>
          obtain ⟨g, gs'⟩ := v
          rw [hrec] at hx
          simp only at hx
          exact List.mem_cons_of_mem _ (ih x hx)
      | none =>
          rw [hrec] at hx
          simp only at hx
          rcases List.mem_cons.mp hx with hxb | hx'
          · rw [hxb]; exact List.mem_cons_self _ _
          · exact List.mem_cons_of_mem _ (ih x hx')

theorem matchPairs_leftG_subset {pred : LedgerRecord → LedgerRecord → Bool}
    {bs gs : List LedgerRecord} :
    ∀ x ∈ (matchPairs pred bs gs).2.2, x ∈ gs := by
  induction bs generalizing gs with
  | nil => intro x hx; simpa [matchPairs] using hx
  | cons b bs ih =>
      intro x hx
      rw [matchPairs] at hx
      cases hrec : extractFirst (pred b) gs with
      | some v =>
          obtain ⟨g, gs'⟩ := v
          rw [hrec] at hx
          simp only at hx
          exact extractFirst_some_subset hrec x (ih x hx)
      | none =>
          rw [hrec] at hx
          simp only at hx
          exact ih x hx

theorem matchPairs_pairs_pred {pred : LedgerRecord → LedgerRecord → Bool}
    {bs gs : List LedgerRecord} :
    ∀ q ∈ (matchPairs pred bs gs).1, pred q.1 q.2 = true := by
  induction bs generalizing gs with
  | nil => intro q hq; simp [matchPairs] at hq
  | cons b bs ih =>
      intro q hq
      rw [matchPairs] at hq
      cases hrec : extractFirst (pred b) gs with
      | some v =>
          obtain ⟨g, gs'⟩ := v
          rw [hrec] at hq
          simp only at hq
          rcases List.mem_cons.mp hq with hqb | hq'
          · rw [hqb]; exact extractFirst_some_pred hrec
          · exact ih q hq'
      | none =>
          rw [hrec] at hq
          simp only at hq
          exact ih q hq

theorem matchPairs_not_both_left {pred : LedgerRecord → LedgerRecord → Bool}
    {bs gs : List LedgerRecord} {b g : LedgerRecord}
    (hbg : pred b g = true) (hb : b ∈ bs) (hg : g ∈ gs) :
    ¬(b ∈ (matchPairs pred bs gs).2.1 ∧ g ∈ (matchPairs pred bs gs).2.2) := by
  induction bs generalizing gs with
  | nil => simp at hb
  | cons b0 bs ih =>
      rintro ⟨hbl, hgl⟩
      rw [matchPairs] at hbl hgl
      cases hrec : extractFirst (pred b0) gs with
      | some v =>
          obtain ⟨g0, gs'⟩ := v
          rw [hrec] at hbl hgl
          simp only at hbl hgl
          have hb' : b ∈ bs := matchPairs_leftB_subset b hbl
          have hg' : g ∈ gs' := matchPairs_leftG_subset g hgl
          exact ih hb' hg' ⟨hbl, hgl⟩
      | none =>
          rw [hrec] at hbl hgl
          simp only at hbl hgl
          rcases List.mem_cons.mp hbl with hbb | hbl'
          · have hfalse := extractFirst_none hrec g hg
            rw [← hbb] at hfalse
            rw [hbg] at hfalse
            exact Bool.noConfusion hfalse
          · have hb' : b ∈ bs := matchPairs_leftB_subset b hbl'
            exact ih hb' hg ⟨hbl', hgl⟩

theorem matchPairs_length {pred : LedgerRecord → LedgerRecord → Bool}
    {bs gs : List LedgerRecord} :
    2 * (matchPairs pred bs gs).1.length + (matchPairs pred bs gs).2.1.length +
      (matchPairs pred bs gs).2.2.length = bs.length + gs.length := by
  induction bs generalizing gs with
  | nil => simp [matchPairs]
  | cons b bs ih =>
      rw [matchPairs]
      cases hrec : extractFirst (pred b) gs with
      | some v =>
          obtain ⟨g, gs'⟩ := v
          have hlen := extractFirst_some_length hrec
          have := @ih gs'
          simp only [List.length_cons]
          omega
      | none =>
          have := @ih gs
          simp only [List.length_cons]
          omega

theorem length_filter_partition {α} (p : α → Bool) (l : List α) :
    (l.filter p).length + (l.filter (fun a => !p a)).length = l.length := by
  induction l with
  | nil => rfl
  | cons a t ih => by_cases h : p a <;> simp [List.filter_cons, h] <;> omega

theorem headD_mem {α} {l : List α} (h : l ≠ []) (d : α) : l.headD d ∈ l := by
  cases l with
  | nil => exact absurd rfl h
  | cons x xs => exact List.mem_cons_self _ _

theorem groupOnce_accept_all {cfg : ToleranceConfig}
    {key : LedgerRecord → LedgerRecord → Bool} {amt : LedgerRecord → ℚ} {tol : ℚ}
    {pool0 : List LedgerRecord} {s : LedgerRecord} {ms : List LedgerRecord}
    (h : groupOnce cfg key amt tol pool0 s ms = true) :
    ∀ m ∈ ms.filter (key s), acceptB cfg (computeScores cfg s m) = true := by
  unfold groupOnce at h
  simp only [Bool.and_eq_true, List.all_eq_true] at h
  exact h.1.2

theorem groupOnce_members_nonempty {cfg : ToleranceConfig}
    {key : LedgerRecord → LedgerRecord → Bool} {amt : LedgerRecord → ℚ} {tol : ℚ}
    {pool0 : List LedgerRecord} {s : LedgerRecord} {ms : List LedgerRecord}
    (h : groupOnce cfg key amt tol pool0 s ms = true) :
    ms.filter (key s) ≠ [] := by
  unfold groupOnce at h
  simp only [Bool.and_eq_true, decide_eq_true_eq] at h
  have h2 : 2 ≤ (ms.filter (key s)).length := h.1.1.1
  intro hnil
  rw [hnil] at h2
  simp at h2

theorem groupStage_out_mem {cfg : ToleranceConfig}
    {key : LedgerRecord → LedgerRecord → Bool} {amt : LedgerRecord → ℚ} {tol : ℚ}
    {stat : Status} {pool0 : List LedgerRecord} {ss ms : List LedgerRecord} {n : ℕ} :
    ∀ e ∈ (groupStage cfg key amt tol stat pool0 ss ms n).1,
      e.2.status = stat ∧ ∃ sc, e.2.scores = some sc ∧ acceptB cfg sc = true := by
  induction ss generalizing ms n with
  | nil => intro e he; simp [groupStage] at he
  | cons s ss ih =>
      intro e he
      rw [groupStage] at he
      by_cases hco : groupOnce cfg key amt tol pool0 s ms = true
      · rw [if_pos hco] at he
        simp only at he
        rcases List.mem_cons.mp he with he1 | he2
        · rw [he1]
          refine ⟨rfl, computeScores cfg s ((ms.filter (key s)).headD s), rfl, ?_⟩
          exact groupOnce_accept_all hco _
            (headD_mem (groupOnce_members_nonempty hco) s)
        · rcases List.mem_append.mp he2 with hmap | hrec
          · obtain ⟨m, hm, rfl⟩ := List.mem_map.mp hmap
            exact ⟨rfl, computeScores cfg s m, rfl, groupOnce_accept_all hco m hm⟩
          · exact ih _ hrec
      · rw [if_neg hco] at he
        simp only at he
        exact ih _ he

theorem groupStage_ls_subset {cfg : ToleranceConfig}
    {key : LedgerRecord → LedgerRecord → Bool} {amt : LedgerRecord → ℚ} {tol : ℚ}
    {stat : Status} {pool0 : List LedgerRecord} {ss ms : List LedgerRecord} {n : ℕ} :
    ∀ x ∈ (groupStage cfg key amt tol stat pool0 ss ms n).2.1, x ∈ ss := by
  induction ss generalizing ms n with
  | nil => intro x hx; simp [groupStage] at hx
  | cons s ss ih =>
      intro x hx
      rw [groupStage] at hx
      by_cases hco : groupOnce cfg key amt tol pool0 s ms = true
      · rw [if_pos hco] at hx
        simp only at hx
        exact List.mem_cons_of_mem _ (ih x hx)
      · rw [if_neg hco] at hx
        simp only at hx
        rcases List.mem_cons.mp hx with hxs | hx'
        · rw [hxs]; exact List.mem_cons_self _ _
        · exact List.mem_cons_of_mem _ (ih x hx')

theorem groupStage_lm_subset {cfg : ToleranceConfig}
    {key : LedgerRecord → LedgerRecord → Bool} {amt : LedgerRecord → ℚ} {tol : ℚ}
    {stat : Status} {pool0 : List LedgerRecord} {ss ms : List LedgerRecord} {n : ℕ} :
    ∀ x ∈ (groupStage cfg key amt tol stat pool0 ss ms n).2.2.1, x ∈ ms := by
  induction ss generalizing ms n with
  | nil =>
      intro x hx
      simpa [groupStage] using hx
  | cons s ss ih =>
      intro x hx
      rw [groupStage] at hx
      by_cases hco : groupOnce cfg key amt tol pool0 s ms = true
      · rw [if_pos hco] at hx
        simp only at hx
        exact (List.mem_filter.mp (ih x hx)).1
      · rw [if_neg hco] at hx
        simp only at hx
        exact ih x hx

theorem groupStage_length {cfg : ToleranceConfig}
    {key : LedgerRecord → LedgerRecord → Bool} {amt : LedgerRecord → ℚ} {tol : ℚ}
    {stat : Status} {pool0 : List LedgerRecord} {ss ms : List LedgerRecord} {n : ℕ} :
    (groupStage cfg key amt tol stat pool0 ss ms n).1.length +
      (groupStage cfg key amt tol stat pool0 ss ms n).2.1.length +
      (groupStage cfg key amt tol stat pool0 ss ms n).2.2.1.length =
      ss.length + ms.length := by
  induction ss generalizing ms n with
  | nil => simp [groupStage]
  | cons s ss ih =>
      rw [groupStage]
      by_cases hco : groupOnce cfg key amt tol pool0 s ms = true
      · rw [if_pos hco]
        simp only [List.length_cons, List.length_append, List.length_map]
        have hpart := length_filter_partition (key s) ms
        have hrec := @ih (ms.filter (fun m => !key s m)) (n + 1)
        omega
      · rw [if_neg hco]
        simp only [List.length_cons]
        have hrec := @ih ms n
        omega

theorem annotatePairs_mem {stat : Status} {cfg : ToleranceConfig}
    {n : ℕ} {ps : List (LedgerRecord × LedgerRecord)} :
    ∀ e ∈ annotatePairs stat cfg n ps,
      e.2.status = stat ∧
        ∃ p ∈ ps, e.2.scores = some (computeScores cfg p.1 p.2) ∧ (e.1 = p.1 ∨ e.1 = p.2) := by
  induction ps generalizing n with
  | nil => intro e he; simp [annotatePairs] at he
  | cons p ps ih =>
      intro e he
      rw [annotatePairs] at he
      rcases List.mem_cons.mp he with he1 | he'
      · rw [he1]
        exact ⟨rfl, p, List.mem_cons_self _ _, rfl, Or.inl rfl⟩
      · rcases List.mem_cons.mp he' with he2 | he''
        · rw [he2]
          exact ⟨rfl, p, List.mem_cons_self _ _, rfl, Or.inr rfl⟩
        · obtain ⟨hst, q, hq, hsc⟩ := ih e he''
          exact ⟨hst, q, List.mem_cons_of_mem _ hq, hsc⟩

theorem annotatePairs_length {stat : Status} {cfg : ToleranceConfig}
    {n : ℕ} {ps : List (LedgerRecord × LedgerRecord)} :
    (annotatePairs stat cfg n ps).length = 2 * ps.length := by
  induction ps generalizing n with
  | nil => rfl
  | cons p ps ih =>
      rw [annotatePairs]
      simp only [List.length_cons, ih]
      omega

theorem annotateOnly_mem {stat : Status} {rs : List LedgerRecord} :
    ∀ e ∈ annotateOnly stat rs,
      e.2.status = stat ∧ e.2.scores = none ∧ e.1 ∈ rs := by
  intro e he
  obtain ⟨r, hr, rfl⟩ := List.mem_map.mp he
  exact ⟨rfl, rfl, hr⟩

theorem countStatus_append {xs ys : List (LedgerRecord × MatchAnnotation)} {s : Status} :
    countStatus (xs ++ ys) s = countStatus xs s + countStatus ys s := by
  simp [countStatus, List.filter_append]

theorem countStatus_eq_zero_of_ne {l : List (LedgerRecord × MatchAnnotation)}
    {stat s : Status} (h : ∀ e ∈ l, e.2.status = stat) (hne : stat ≠ s) :
    countStatus l s = 0 := by
  unfold countStatus
  rw [List.length_eq_zero]
  rw [List.filter_eq_nil_iff]
  intro e he
  rw [decide_eq_true_eq]
  intro heq
  exact hne ((h e he) ▸ heq)

theorem filter_filter_of_imp {α} (p q : α → Bool) (l : List α)
    (h : ∀ a, p a = true → q a = true) :
    (l.filter q).filter p = l.filter p := by
  induction l with
  | nil => rfl
  | cons a t ih =>
      by_cases hp : p a = true
      · have hq := h a hp
        simp [List.filter_cons, hp, hq, ih]
      · by_cases hq : q a = true <;>
          simp [List.filter_cons, hp, hq, ih]

theorem countStatus_filter {l : List (LedgerRecord × MatchAnnotation)}
    {q : LedgerRecord × MatchAnnotation → Bool} {s : Status}
    (h : ∀ e, e.2.status = s → q e = true) :
    countStatus (l.filter q) s = countStatus l s := by
  unfold countStatus
  rw [filter_filter_of_imp _ _ _ (fun e hp => h e (of_decide_eq_true hp))]

theorem length_three_split {α} (p q : α → Bool) (l : List α)
    (hpq : ∀ a, p a = true → q a = false) :
    (l.filter p).length + (l.filter q).length +
      (l.filter (fun a => !(p a || q a))).length = l.length := by
  induction l with
  | nil => rfl
  | cons a t ih =>
      by_cases hp : p a = true
      · have hq := hpq a hp
        have e1 : List.filter p (a :: t) = a :: List.filter p t := by
          simp [List.filter_cons, hp]
        have e2 : List.filter q (a :: t) = List.filter q t := by
          simp [List.filter_cons, hq]
        have e3 : List.filter (fun x => !(p x || q x)) (a :: t) =
            List.filter (fun x => !(p x || q x)) t := by
          simp [List.filter_cons, hp]
        rw [e1, e2, e3]
        simp only [List.length_cons]
        omega
      · by_cases hq : q a = true
        · have e1 : List.filter p (a :: t) = List.filter p t := by
            simp [List.filter_cons, hp]
          have e2 : List.filter q (a :: t) = a :: List.filter q t := by
            simp [List.filter_cons, hq]
          have e3 : List.filter (fun x => !(p x || q x)) (a :: t) =
              List.filter (fun x => !(p x || q x)) t := by
            simp [List.filter_cons, hq]
          rw [e1, e2, e3]
          simp only [List.length_cons]
          omega
        · have e1 : List.filter p (a :: t) = List.filter p t := by
            simp [List.filter_cons, hp]
          have e2 : List.filter q (a :: t) = List.filter q t := by
            simp [List.filter_cons, hq]
          have e3 : List.filter (fun x => !(p x || q x)) (a :: t) =
              a :: List.filter (fun x => !(p x || q x)) t := by
            simp [List.filter_cons, hp, hq]
          rw [e1, e2, e3]
          simp only [List.length_cons]
          omega

/-! ## The acceptance-rule invariant of the pipeline -/

theorem tableAccepted_append {cfg : ToleranceConfig}
    {l1 l2 : List (LedgerRecord × MatchAnnotation)}
    (h1 : TableAccepted cfg l1) (h2 : TableAccepted cfg l2) :
    TableAccepted cfg (l1 ++ l2) := fun e he hs =>
  (List.mem_append.mp he).elim (fun h => h1 e h hs) fun h => h2 e h hs

theorem tableAccepted_filter {cfg : ToleranceConfig}
    {l : List (LedgerRecord × MatchAnnotation)}
    {q : LedgerRecord × MatchAnnotation → Bool} (h : TableAccepted cfg l) :
    TableAccepted cfg (l.filter q) := fun e he hs =>
  h e (List.mem_filter.mp he).1 hs

theorem tableAccepted_annotatePairs_other {cfg : ToleranceConfig} {stat : Status}
    {n : ℕ} {ps : List (LedgerRecord × LedgerRecord)}
    (h1 : stat ≠ Status.partialMatch) (h2 : stat ≠ Status.groupMatch)
    (h3 : stat ≠ Status.taxBasedGroupMatch) :
    TableAccepted cfg (annotatePairs stat cfg n ps) := by
  intro e he hs
  have hst := (annotatePairs_mem e he).1
  rw [hst] at hs
  rcases hs with hs | hs | hs
  · exact absurd hs h1
  · exact absurd hs h2
  · exact absurd hs h3

theorem tableAccepted_partialPairs {cfg : ToleranceConfig}
    {n : ℕ} {ps : List (LedgerRecord × LedgerRecord)}
    (hp : ∀ p ∈ ps, partialPred cfg p.1 p.2 = true) :
    TableAccepted cfg (annotatePairs Status.partialMatch cfg n ps) := by
  intro e he _
  obtain ⟨-, p, hpmem, hsc, -⟩ := annotatePairs_mem e he
  refine ⟨computeScores cfg p.1 p.2, hsc, ?_⟩
  have := hp p hpmem
  unfold partialPred at this
  simp only [Bool.and_eq_true] at this
  exact this.1.1

theorem tableAccepted_groupStage {cfg : ToleranceConfig}
    {key : LedgerRecord → LedgerRecord → Bool} {amt : LedgerRecord → ℚ} {tol : ℚ}
    {stat : Status} {pool0 ss ms : List LedgerRecord} {n : ℕ} :
    TableAccepted cfg (groupStage cfg key amt tol stat pool0 ss ms n).1 := by
  intro e he _
  obtain ⟨-, sc, hsc, hacc⟩ := groupStage_out_mem e he
  exact ⟨sc, hsc, hacc⟩

theorem tableAccepted_annotateOnly {cfg : ToleranceConfig} {stat : Status}
    {rs : List LedgerRecord}
    (h1 : stat ≠ Status.partialMatch) (h2 : stat ≠ Status.groupMatch)
    (h3 : stat ≠ Status.taxBasedGroupMatch) :
    TableAccepted cfg (annotateOnly stat rs) := by
  intro e he hs
  have hst := (annotateOnly_mem e he).1
  rw [hst] at hs
  rcases hs with hs | hs | hs
  · exact absurd hs h1
  · exact absurd hs h2
  · exact absurd hs h3

/-- The baseline pipeline establishes the acceptance-rule invariant. -/
theorem runPipeline_accepted (cfg : ToleranceConfig) (input : List LedgerRecord) :
    TableAccepted cfg (runPipeline cfg input).table := by
  simp only [runPipeline]
  refine tableAccepted_append (tableAccepted_append (tableAccepted_append
    (tableAccepted_append (tableAccepted_append (tableAccepted_append
      (tableAccepted_append (tableAccepted_append ?_ ?_) ?_) ?_) ?_) ?_) ?_) ?_) ?_
  · exact tableAccepted_annotatePairs_other (by decide) (by decide) (by decide)
  · exact tableAccepted_partialPairs (fun p hp => matchPairs_pairs_pred p hp)
  · exact tableAccepted_groupStage
  · exact tableAccepted_groupStage
  · exact tableAccepted_groupStage
  · exact tableAccepted_groupStage
  · exact tableAccepted_annotatePairs_other (by decide) (by decide) (by decide)
  · exact tableAccepted_annotateOnly (by decide) (by decide) (by decide)
  · exact tableAccepted_annotateOnly (by decide) (by decide) (by decide)

/-- Every entry emitted by the planner's executed pass carries a group
status with acceptance-checked scores. -/
theorem plannerPass_accepted {cfg : ToleranceConfig}
    {onlyB onlyG : List LedgerRecord} {n : ℕ} :
    TableAccepted cfg (plannerPass cfg onlyB onlyG n).1 := by
  simp only [plannerPass]
  exact tableAccepted_append (tableAccepted_append (tableAccepted_append
    tableAccepted_groupStage tableAccepted_groupStage) tableAccepted_groupStage)
    tableAccepted_groupStage

/-- The enhanced-matching planner preserves the acceptance-rule
invariant. -/
theorem planner_accepted (cfg : ToleranceConfig) (st : ReconState)
    (h : TableAccepted cfg st.table) :
    TableAccepted cfg (run_intelligent_enhanced_matching cfg st).2.table := by
  simp only [run_intelligent_enhanced_matching]
  refine tableAccepted_append (tableAccepted_append (tableAccepted_append
    ?_ ?_) ?_) ?_
  · exact tableAccepted_filter h
  · exact plannerPass_accepted
  · exact tableAccepted_annotateOnly (by decide) (by decide) (by decide)
  · exact tableAccepted_annotateOnly (by decide) (by decide) (by decide)

/-- At the default thresholds, a passed acceptance check is exactly the
claim's disjunction. -/
theorem acceptB_default_annAccepted {sc : Scores}
    (h : acceptB defaultConfig sc = true) : annAccepted (some sc) := by
  unfold acceptB at h
  simp only [Bool.or_eq_true, decide_eq_true_eq] at h
  unfold annAccepted
  rcases h with (h | h) | h
  · exact Or.inl h
  · exact Or.inr (Or.inl h)
  · exact Or.inr (Or.inr h)

/-! ## Evaluation of the pipeline on a one-Books / one-GSTR-2A dataset -/

theorem filter_pair_books {b g : LedgerRecord}
    (hb : b.source = Source.books) (hg : g.source = Source.gstr2a) :
    [b, g].filter (fun r => decide (r.source = Source.books)) = [b] := by
  simp [List.filter_cons, hb, hg]

theorem filter_pair_gstr2a {b g : LedgerRecord}
    (hb : b.source = Source.books) (hg : g.source = Source.gstr2a) :
    [b, g].filter (fun r => decide (r.source = Source.gstr2a)) = [g] := by
  simp [List.filter_cons, hb, hg]

theorem matchPairs_pair_pos {pred : LedgerRecord → LedgerRecord → Bool}
    {b g : LedgerRecord} (h : pred b g = true) :
    matchPairs pred [b] [g] = ([(b, g)], [], []) := by
  simp [matchPairs, extractFirst, h]

theorem matchPairs_pair_neg {pred : LedgerRecord → LedgerRecord → Bool}
    {b g : LedgerRecord} (h : pred b g = false) :
    matchPairs pred [b] [g] = ([], [b], [g]) := by
  simp [matchPairs, extractFirst, h]

theorem groupOnce_singleton {cfg : ToleranceConfig}
    {key : LedgerRecord → LedgerRecord → Bool} {amt : LedgerRecord → ℚ} {tol : ℚ}
    {pool0 : List LedgerRecord} {s m : LedgerRecord} :
    groupOnce cfg key amt tol pool0 s [m] = false := by
  unfold groupOnce
  by_cases hk : key s m = true <;> simp [List.filter_cons, hk]

theorem groupStage_pair {cfg : ToleranceConfig}
    {key : LedgerRecord → LedgerRecord → Bool} {amt : LedgerRecord → ℚ} {tol : ℚ}
    {stat : Status} {pool0 : List LedgerRecord} {s m : LedgerRecord} {n : ℕ} :
    groupStage cfg key amt tol stat pool0 [s] [m] n = ([], [s], [m], n) := by
  rw [groupStage, if_neg (by simp [groupOnce_singleton])]
  rfl

/-- Two-record dataset, exact case: an identifier-and-amount-identical
pair is classified Exact Match. -/
theorem runPipeline_pair_exact (cfg : ToleranceConfig) (b g : LedgerRecord)
    (hb : b.source = Source.books) (hg : g.source = Source.gstr2a)
    (hex : exactPred b g = true) :
    (runPipeline cfg [b, g]).table =
      [(b, ⟨Status.exactMatch, some (computeScores cfg b g), none, some 0,
          some (totalTax b - totalTax g)⟩),
       (g, ⟨Status.exactMatch, some (computeScores cfg b g), none, some 0,
          some (totalTax b - totalTax g)⟩)] := by
  simp only [runPipeline, filter_pair_books hb hg, filter_pair_gstr2a hb hg,
    matchPairs_pair_pos hex]
  rfl

/-- Two-record dataset, partial case: the pair is classified Partial
Match. -/
theorem runPipeline_pair_stage2 (cfg : ToleranceConfig) (b g : LedgerRecord)
    (hb : b.source = Source.books) (hg : g.source = Source.gstr2a)
    (hex : exactPred b g = false) (hpp : partialPred cfg b g = true) :
    (runPipeline cfg [b, g]).table =
      [(b, ⟨Status.partialMatch, some (computeScores cfg b g), none, some 0,
          some (totalTax b - totalTax g)⟩),
       (g, ⟨Status.partialMatch, some (computeScores cfg b g), none, some 0,
          some (totalTax b - totalTax g)⟩)] := by
  simp only [runPipeline, filter_pair_books hb hg, filter_pair_gstr2a hb hg,
    matchPairs_pair_neg hex, matchPairs_pair_pos hpp]
  rfl

/-- Two-record dataset, no-match case: both records stay unmatched and are
classified Books-Only / GSTR-2A-Only. -/
theorem runPipeline_pair_none (cfg : ToleranceConfig) (b g : LedgerRecord)
    (hb : b.source = Source.books) (hg : g.source = Source.gstr2a)
    (hex : exactPred b g = false) (hpp : partialPred cfg b g = false)
    (hsw : swapPred cfg b g = false) :
    (runPipeline cfg [b, g]).table =
      [(b, ⟨Status.booksOnly, none, none, none, none⟩),
       (g, ⟨Status.gstr2aOnly, none, none, none, none⟩)] := by
  simp only [runPipeline, filter_pair_books hb hg, filter_pair_gstr2a hb hg,
    matchPairs_pair_neg hex, matchPairs_pair_neg hpp, groupStage_pair,
    matchPairs_pair_neg hsw]
  rfl

/-- A pair with equal raw identifiers always passes the identity
acceptance (the identifier scores 100 at the default thresholds); with
tolerable amount and date differences the partial predicate therefore
holds. -/
theorem partialPred_of_id_eq {b g : LedgerRecord}
    (hid : b.supplierId = g.supplierId)
    (htax : |totalTax b - totalTax g| ≤ defaultConfig.taxAmountTolerance)
    (hdate : |dateDiff b g| ≤ defaultConfig.dateToleranceDays) :
    partialPred defaultConfig b g = true := by
  have hgs : gstinScore b.supplierId g.supplierId = 100 := by
    unfold gstinScore
    rw [hid]
    simp
  have hacc : acceptB defaultConfig (computeScores defaultConfig b g) = true := by
    unfold acceptB computeScores
    have h80 : defaultConfig.gstinSimilarityThreshold = 80 := rfl
    simp [hgs, h80]
  unfold partialPred
  rw [hacc]
  simp [htax, hdate]

theorem status_clash {a : MatchAnnotation} {s1 s2 : Status}
    (h1 : a.status = s1) (h2 : a.status = s2) (hne : s1 ≠ s2) : False :=
  hne (h1.symm.trans h2)

/-- After the full pipeline, a Books record and a GSTR-2A record that
satisfy the partial predicate are never both left unmatched: the greedy
stage-2 pass is exhaustive. -/
theorem runPipeline_not_both_only (cfg : ToleranceConfig) (input : List LedgerRecord)
    {b g : LedgerRecord} {ab ag : MatchAnnotation}
    (hpp : partialPred cfg b g = true)
    (hmb : (b, ab) ∈ (runPipeline cfg input).table) (hsb : ab.status = Status.booksOnly)
    (hmg : (g, ag) ∈ (runPipeline cfg input).table) (hsg : ag.status = Status.gstr2aOnly) :
    False := by
  simp only [runPipeline] at hmb hmg
  rcases List.mem_append.mp hmb with h18 | h9
  case inr => exact status_clash (annotateOnly_mem _ h9).1 hsb (by decide)
  rcases List.mem_append.mp h18 with h17 | h8
  case inr =>
    -- `b` is a final Books-Only leftover; now locate `g`.
    have hb7 := (annotateOnly_mem _ h8).2.2
    rcases List.mem_append.mp hmg with k18 | k9
    case inl =>
      rcases List.mem_append.mp k18 with k17 | k8
      case inr => exact status_clash (annotateOnly_mem _ k8).1 hsg (by decide)
      rcases List.mem_append.mp k17 with k16 | k7
      case inr => exact status_clash (annotatePairs_mem _ k7).1 hsg (by decide)
      rcases List.mem_append.mp k16 with k15 | k6
      case inr => exact status_clash (groupStage_out_mem _ k6).1 hsg (by decide)
      rcases List.mem_append.mp k15 with k14 | k5
      case inr => exact status_clash (groupStage_out_mem _ k5).1 hsg (by decide)
      rcases List.mem_append.mp k14 with k13 | k4
      case inr => exact status_clash (groupStage_out_mem _ k4).1 hsg (by decide)
      rcases List.mem_append.mp k13 with k12 | k3
      case inr => exact status_clash (groupStage_out_mem _ k3).1 hsg (by decide)
      rcases List.mem_append.mp k12 with k1 | k2
      case inl => exact status_clash (annotatePairs_mem _ k1).1 hsg (by decide)
      exact status_clash (annotatePairs_mem _ k2).1 hsg (by decide)
    -- `g` is a final GSTR-2A-Only leftover: chase both memberships back to
    -- the stage-2 leftovers and contradict the exhaustive greedy pass.
    have hg7 := (annotateOnly_mem _ k9).2.2
    have hb6 := matchPairs_leftB_subset b hb7
    have hb5 := groupStage_lm_subset b hb6
    have hb4 := groupStage_ls_subset b hb5
    have hb3 := groupStage_lm_subset b hb4
    have hb2 := groupStage_ls_subset b hb3
    have hg6 := matchPairs_leftG_subset g hg7
    have hg5 := groupStage_ls_subset g hg6
    have hg4 := groupStage_lm_subset g hg5
    have hg3 := groupStage_ls_subset g hg4
    have hg2 := groupStage_lm_subset g hg3
    have hb1 := matchPairs_leftB_subset b hb2
    have hg1 := matchPairs_leftG_subset g hg2
    exact matchPairs_not_both_left hpp hb1 hg1 ⟨hb2, hg2⟩
  rcases List.mem_append.mp h17 with h16 | h7
  case inr => exact status_clash (annotatePairs_mem _ h7).1 hsb (by decide)
  rcases List.mem_append.mp h16 with h15 | h6
  case inr => exact status_clash (groupStage_out_mem _ h6).1 hsb (by decide)
  rcases List.mem_append.mp h15 with h14 | h5
  case inr => exact status_clash (groupStage_out_mem _ h5).1 hsb (by decide)
  rcases List.mem_append.mp h14 with h13 | h4
  case inr => exact status_clash (groupStage_out_mem _ h4).1 hsb (by decide)
  rcases List.mem_append.mp h13 with h12 | h3
  case inr => exact status_clash (groupStage_out_mem _ h3).1 hsb (by decide)
  rcases List.mem_append.mp h12 with h1 | h2
  case inl => exact status_clash (annotatePairs_mem _ h1).1 hsb (by decide)
  exact status_clash (annotatePairs_mem _ h2).1 hsb (by decide)

/-! ## Counting lemmas for the planner -/

theorem annotateOnly_length {stat : Status} {rs : List LedgerRecord} :
    (annotateOnly stat rs).length = rs.length := by
  simp [annotateOnly]

/-- The planner's executed pass only regroups its input records: entry
count is conserved. -/
theorem plannerPass_length (cfg : ToleranceConfig) (A B : List LedgerRecord) (n : ℕ) :
    (plannerPass cfg A B n).1.length + (plannerPass cfg A B n).2.1.length +
      (plannerPass cfg A B n).2.2.1.length = A.length + B.length := by
  simp only [plannerPass, List.length_append]
  have l1 := @groupStage_length cfg groupKey (fun r => r.invoiceValue)
    cfg.taxAmountTolerance Status.groupMatch A A B n
  rcases ho1 : groupStage cfg groupKey (fun r => r.invoiceValue) cfg.taxAmountTolerance
      Status.groupMatch A A B n with ⟨out1, ls1, lm1, n1⟩
  rw [ho1] at l1
  dsimp only at l1 ⊢
  have l2 := @groupStage_length cfg groupKey (fun r => r.invoiceValue)
    cfg.taxAmountTolerance Status.groupMatch lm1 lm1 ls1 n1
  rcases ho2 : groupStage cfg groupKey (fun r => r.invoiceValue) cfg.taxAmountTolerance
      Status.groupMatch lm1 lm1 ls1 n1 with ⟨out2, ls2, lm2, n2⟩
  rw [ho2] at l2
  dsimp only at l2 ⊢
  have l3 := @groupStage_length cfg taxGroupKey totalTax
    cfg.groupTaxTolerance Status.taxBasedGroupMatch lm2 lm2 ls2 n2
  rcases ho3 : groupStage cfg taxGroupKey totalTax cfg.groupTaxTolerance
      Status.taxBasedGroupMatch lm2 lm2 ls2 n2 with ⟨out3, ls3, lm3, n3⟩
  rw [ho3] at l3
  dsimp only at l3 ⊢
  have l4 := @groupStage_length cfg taxGroupKey totalTax
    cfg.groupTaxTolerance Status.taxBasedGroupMatch lm3 lm3 ls3 n3
  rcases ho4 : groupStage cfg taxGroupKey totalTax cfg.groupTaxTolerance
      Status.taxBasedGroupMatch lm3 lm3 ls3 n3 with ⟨out4, ls4, lm4, n4⟩
  rw [ho4] at l4
  dsimp only at l4 ⊢
  omega

/-- One planner run never decreases the cardinality of any class other
than the residual Only classes, and never changes the table length. -/
theorem planner_step (cfg : ToleranceConfig) (st : ReconState) :
    (∀ s : Status, s ≠ Status.booksOnly → s ≠ Status.gstr2aOnly →
      countStatus st.table s ≤ countStatus (afterPlanner cfg st).table s) ∧
    (afterPlanner cfg st).table.length = st.table.length := by
  have hq : ∀ e : LedgerRecord × MatchAnnotation, ∀ s : Status,
      s ≠ Status.booksOnly → s ≠ Status.gstr2aOnly → e.2.status = s →
      (!(decide (e.2.status = Status.booksOnly) ||
        decide (e.2.status = Status.gstr2aOnly))) = true := by
    intro e s hs1 hs2 he
    rw [he, decide_eq_false hs1, decide_eq_false hs2]
    rfl
  constructor
  · intro s hs1 hs2
    simp only [afterPlanner, run_intelligent_enhanced_matching]
    rw [countStatus_append, countStatus_append, countStatus_append,
      countStatus_filter (fun e he => hq e s hs1 hs2 he)]
    omega
  · simp only [afterPlanner, run_intelligent_enhanced_matching]
    simp only [List.length_append, annotateOnly_length]
    have hpass := plannerPass_length cfg (onlyBooksRecords st.table)
      (onlyGstr2aRecords st.table) st.nextGroupId
    have hOB : (onlyBooksRecords st.table).length =
        (st.table.filter (fun e => decide (e.2.status = Status.booksOnly))).length := by
      simp [onlyBooksRecords]
    have hOG : (onlyGstr2aRecords st.table).length =
        (st.table.filter (fun e => decide (e.2.status = Status.gstr2aOnly))).length := by
      simp [onlyGstr2aRecords]
    have hsplit := length_three_split
      (fun e : LedgerRecord × MatchAnnotation => decide (e.2.status = Status.booksOnly))
      (fun e => decide (e.2.status = Status.gstr2aOnly)) st.table
      (by
        intro a ha
        have h1 : a.2.status = Status.booksOnly := of_decide_eq_true ha
        show decide (a.2.status = Status.gstr2aOnly) = false
        rw [h1]
        decide)
    dsimp only at hsplit
    omega

/-! ## Theorems about the settings helpers -/

/-- The two status strings are distinct. -/
theorem no_diff_ne_has_diff : ("No Difference" : String) ≠ "Has Difference" := by decide

/-- The two date status strings are distinct. -/
theorem within_ne_outside : ("Within Tolerance" : String) ≠ "Outside Tolerance" := by decide

/-- C5: the tax-diff status is "No Difference" iff `|d| ≤ t` and
"Has Difference" otherwise; with tolerance 10.0 the boundary is inclusive at
both signs (`10.0` and `-10.0` give "No Difference", `10.01` and `-10.01`
give "Has Difference"). -/
theorem tax_diff_status_boundary :
    (∀ d t : ℚ, (get_tax_diff_status d t = "No Difference" ↔ |d| ≤ t) ∧
      (get_tax_diff_status d t = "Has Difference" ↔ ¬ |d| ≤ t)) ∧
    get_tax_diff_status 10 10 = "No Difference" ∧
    get_tax_diff_status (-10) 10 = "No Difference" ∧
    get_tax_diff_status (1001 / 100) 10 = "Has Difference" ∧
    get_tax_diff_status (-(1001 / 100)) 10 = "Has Difference" := by
  refine ⟨fun d t => ?_, ?_, ?_, ?_, ?_⟩
  · unfold get_tax_diff_status
    by_cases h : |d| ≤ t <;>
      simp [h, no_diff_ne_has_diff, no_diff_ne_has_diff.symm]
  · unfold get_tax_diff_status; rw [if_pos (by norm_num [abs_le])]
  · unfold get_tax_diff_status; rw [if_pos (by norm_num [abs_le])]
  · unfold get_tax_diff_status; rw [if_neg (by norm_num [abs_le])]
  · unfold get_tax_diff_status; rw [if_neg (by norm_num [abs_le])]

/-- C7: the date status is "Within Tolerance" iff `|d| ≤ k` and
"Outside Tolerance" otherwise, symmetric in sign; with tolerance 1 day,
`-1, 0, 1` are within and `-2, 2` are outside. -/
theorem date_status_boundary :
    (∀ d k : ℤ, (get_date_status d k = "Within Tolerance" ↔ |d| ≤ k) ∧
      (get_date_status d k = "Outside Tolerance" ↔ ¬ |d| ≤ k)) ∧
    get_date_status (-1) 1 = "Within Tolerance" ∧
    get_date_status 0 1 = "Within Tolerance" ∧
    get_date_status 1 1 = "Within Tolerance" ∧
    get_date_status (-2) 1 = "Outside Tolerance" ∧
    get_date_status 2 1 = "Outside Tolerance" := by
  refine ⟨fun d k => ?_, by decide, by decide, by decide, by decide, by decide⟩
  unfold get_date_status
  by_cases h : |d| ≤ k <;>
    simp [h, within_ne_outside, within_ne_outside.symm]

/-- C3: the derived `Total Tax Diff` of every row is the signed sum
`IGST Diff + CGST Diff + SGST Diff`, and `calculate_total_tax_difference`
on Books amounts (100, 50, 25) versus GSTR-2A amounts (95, 45, 20) returns
the signed sum of the three per-type differences. -/
theorem total_tax_diff_is_signed_sum :
    (∀ (cfg : ToleranceConfig) (r : ReconRow),
        (apply_settings_to_row cfg r).totalTaxDiff =
          r.igstDiff + r.cgstDiff + r.sgstDiff) ∧
    calculate_total_tax_difference 100 50 25 95 45 20 =
      (100 - 95) + (50 - 45) + (25 - 20) := by
  exact ⟨fun cfg r => rfl, by norm_num [calculate_total_tax_difference]⟩

/-- C6: rows with status Books Only or GSTR-2A Only get `Tax Diff Status`
and `Date Status` both `"N/A"` whatever their numeric differences; rows of
any other status get the statuses computed from the tolerances. -/
theorem na_statuses_for_only_rows (cfg : ToleranceConfig) (r : ReconRow) :
    (r.status = "Books Only" ∨ r.status = "GSTR-2A Only" →
        (apply_settings_to_row cfg r).taxDiffStatus = "N/A" ∧
        (apply_settings_to_row cfg r).dateStatus = "N/A") ∧
    (¬(r.status = "Books Only" ∨ r.status = "GSTR-2A Only") →
        (apply_settings_to_row cfg r).taxDiffStatus =
          get_tax_diff_status (r.igstDiff + r.cgstDiff + r.sgstDiff)
            cfg.taxAmountTolerance ∧
        (apply_settings_to_row cfg r).dateStatus =
          get_date_status r.dateDiff cfg.dateToleranceDays) := by
  constructor
  · intro h
    simp [apply_settings_to_row, get_tax_diff_status_with_status,
      get_date_status_with_status, h]
  · intro h
    simp [apply_settings_to_row, get_tax_diff_status_with_status,
      get_date_status_with_status, h]

/-- Witness for `na_statuses_for_only_rows` on concrete rows: a Books-Only
row with large differences gets "N/A" twice, a Partial-Match row gets the
tolerance-computed statuses. -/
theorem na_statuses_for_only_rows_witness :
    (apply_settings_to_row defaultConfig
        ⟨50, 30, 20, 4, "Books Only"⟩).taxDiffStatus = "N/A" ∧
    (apply_settings_to_row defaultConfig
        ⟨50, 30, 20, 4, "Books Only"⟩).dateStatus = "N/A" ∧
    (apply_settings_to_row defaultConfig
        ⟨50, 30, 20, 4, "Partial Match"⟩).taxDiffStatus =
      get_tax_diff_status ((50 : ℚ) + 30 + 20) defaultConfig.taxAmountTolerance ∧
    (apply_settings_to_row defaultConfig
        ⟨50, 30, 20, 4, "Partial Match"⟩).dateStatus =
      get_date_status 4 defaultConfig.dateToleranceDays := by
  refine ⟨?_, ?_, ?_, ?_⟩
  · exact ((na_statuses_for_only_rows defaultConfig _).1 (Or.inl rfl)).1
  · exact ((na_statuses_for_only_rows defaultConfig _).1 (Or.inl rfl)).2
  · exact ((na_statuses_for_only_rows defaultConfig _).2 (by decide)).1
  · exact ((na_statuses_for_only_rows defaultConfig _).2 (by decide)).2

/-- C10: `format_indian_currency` is total on missing values — `None` and
`NaN` render as "₹0", as does the amount 0 — and every positive amount
below one lakh is rendered with Indian comma grouping and two decimals
(concretely checked at 100, 1000 and 10000). -/
theorem format_indian_currency_total :
    format_indian_currency .none_ = "₹0" ∧
    format_indian_currency .nan = "₹0" ∧
    format_indian_currency (.val 0) = "₹0" ∧
    (∀ q : ℚ, 0 < q → q < 100000 →
      format_indian_currency (.val q) = "₹" ++ indianCommaFormat q) ∧
    format_indian_currency (.val 100) = "₹100.00" ∧
    format_indian_currency (.val 1000) = "₹1,000.00" ∧
    format_indian_currency (.val 10000) = "₹10,000.00" := by
  refine ⟨rfl, rfl, by norm_num [format_indian_currency], ?_, by decide, by decide, by decide⟩
  intro q hpos hlt
  simp only [format_indian_currency]
  rw [if_neg hpos.ne', if_neg (by exact not_lt.mpr hpos.le)]
  unfold format_positive
  rw [if_pos hlt]

/-- Witness for `format_indian_currency_total` at the amount 100. -/
theorem format_indian_currency_total_witness :
    format_indian_currency (.val 100) = "₹" ++ indianCommaFormat 100 :=
  format_indian_currency_total.2.2.2.1 100 (by norm_num) (by norm_num)

/-! ## Theorems about the reports module -/

/-- C8: on malformed input — a `None` working set, an empty table, or a
table missing required columns — both report operations return the empty
well-typed result (the empty report with the full column list, the all-zero
summary) instead of raising. -/
theorem report_ops_safe_on_malformed :
    get_unique_unmapped_gst_report none = emptyGstReport ∧
    get_report_summary none = zeroSummary ∧
    (∀ f : Frame, f.rows = [] →
      get_unique_unmapped_gst_report (some f) = emptyGstReport ∧
      get_report_summary (some f) = zeroSummary) ∧
    (∀ f : Frame, hasRequiredCols f = false →
      get_unique_unmapped_gst_report (some f) = emptyGstReport ∧
      get_report_summary (some f) = zeroSummary) := by
  refine ⟨rfl, rfl, ?_, ?_⟩
  · intro f h
    have hrep : get_unique_unmapped_gst_report (some f) = emptyGstReport := by
      by_cases hc : hasRequiredCols f <;>
        simp [get_unique_unmapped_gst_report, hc, h]
    exact ⟨hrep, by simp [get_report_summary, hrep, emptyGstReport]⟩
  · intro f h
    have hrep : get_unique_unmapped_gst_report (some f) = emptyGstReport := by
      simp [get_unique_unmapped_gst_report, h]
    exact ⟨hrep, by simp [get_report_summary, hrep, emptyGstReport]⟩

/-- Witness for `report_ops_safe_on_malformed`: the two-column incomplete
table and a zero-row table both yield the empty report and the zero
summary. -/
theorem report_ops_safe_on_malformed_witness :
    (get_unique_unmapped_gst_report (some malformedFrame) = emptyGstReport ∧
      get_report_summary (some malformedFrame) = zeroSummary) ∧
    (get_unique_unmapped_gst_report (some emptyRowsFrame) = emptyGstReport ∧
      get_report_summary (some emptyRowsFrame) = zeroSummary) :=
  ⟨report_ops_safe_on_malformed.2.2.2 malformedFrame (by decide),
   report_ops_safe_on_malformed.2.2.1 emptyRowsFrame rfl⟩

/-- C9: for every table with the required columns, the unmapped report has
exactly one row per distinct 15-character identifier that appears in
GSTR-2A rows and in no Books row; identifiers of other lengths are
excluded; each row carries the count of that identifier's GSTR-2A records
and the sums of its IGST, CGST and SGST amounts. -/
theorem unmapped_report_characterization (f : Frame) (hc : hasRequiredCols f = true) :
    ((get_unique_unmapped_gst_report (some f)).rows.map GstReportRow.gstNumber).Nodup ∧
    (∀ g : String,
        g ∈ (get_unique_unmapped_gst_report (some f)).rows.map GstReportRow.gstNumber ↔
          g.length = 15 ∧ g ∈ gstr2aIds f ∧ g ∉ booksIds f) ∧
    (∀ row ∈ (get_unique_unmapped_gst_report (some f)).rows,
        row.count = (gstinRows f row.gstNumber).length ∧
        row.igst = ((gstinRows f row.gstNumber).map
          (fun r => cellNum (getCell f r "Total IGST Amount"))).sum ∧
        row.cgst = ((gstinRows f row.gstNumber).map
          (fun r => cellNum (getCell f r "Total CGST Amount"))).sum ∧
        row.sgst = ((gstinRows f row.gstNumber).map
          (fun r => cellNum (getCell f r "Total SGST Amount"))).sum) := by
  by_cases he : f.rows.isEmpty
  · have hrows : f.rows = [] := by simpa [List.isEmpty_iff] using he
    have hrep : get_unique_unmapped_gst_report (some f) = emptyGstReport := by
      simp [get_unique_unmapped_gst_report, hc, he]
    rw [hrep]
    refine ⟨by simp [emptyGstReport], ?_, ?_⟩
    · intro g
      simp [emptyGstReport, gstr2aIds, sourceRows, hrows]
    · intro row hrow
      simp [emptyGstReport] at hrow
  · have hrep : (get_unique_unmapped_gst_report (some f)).rows =
        (unmappedIds f).map (mkReportRow f) := by
      simp [get_unique_unmapped_gst_report, hc, he]
    have hnames : ((unmappedIds f).map (mkReportRow f)).map GstReportRow.gstNumber =
        unmappedIds f := by
      rw [List.map_map]
      exact List.map_id _
    refine ⟨?_, ?_, ?_⟩
    · rw [hrep, hnames]
      exact List.nodup_dedup _
    · intro g
      rw [hrep, hnames]
      unfold unmappedIds
      rw [List.mem_dedup, List.mem_filter]
      constructor
      · rintro ⟨hmem, hcond⟩
        rw [Bool.and_eq_true, Bool.not_eq_true'] at hcond
        refine ⟨by simpa [validGstin] using hcond.1, hmem, fun hb => ?_⟩
        have htrue : (booksIds f).contains g = true := List.elem_iff.mpr hb
        rw [hcond.2] at htrue
        exact Bool.false_ne_true htrue
      · rintro ⟨hlen, hmem, hnb⟩
        refine ⟨hmem, ?_⟩
        rw [Bool.and_eq_true, Bool.not_eq_true']
        refine ⟨by simp [validGstin, hlen], ?_⟩
        cases helem : (booksIds f).contains g
        · rfl
        · exact absurd (List.elem_iff.mp helem) hnb
    · intro row hrow
      rw [hrep] at hrow
      obtain ⟨g, hg, rfl⟩ := List.mem_map.mp hrow
      exact ⟨rfl, rfl, rfl, rfl⟩

/-- Witness for `unmapped_report_characterization`: on `witnessFrame` the
15-character identifier only present in GSTR-2A is reported, while on the
test suite's own sample table the 14-character identifier `33IJKL9012L5M3`
is excluded (it does not have 15 characters). -/
theorem unmapped_report_characterization_witness :
    "33IJKLM9012L5M3" ∈
      (get_unique_unmapped_gst_report (some witnessFrame)).rows.map GstReportRow.gstNumber ∧
    "33IJKL9012L5M3" ∉
      (get_unique_unmapped_gst_report (some sampleFrame)).rows.map GstReportRow.gstNumber := by
  constructor
  · exact ((unmapped_report_characterization witnessFrame (by decide)).2.1 _).mpr
      ⟨by decide, by decide, by decide⟩
  · intro h
    have hchar := ((unmapped_report_characterization sampleFrame (by decide)).2.1 _).mp h
    exact absurd hchar.1 (by decide)

/-! ## Theorems about the reconciliation engine -/

/-- C1: acceptance-rule soundness.  In the baseline pipeline output and
after the enhanced-matching planner, every record classified Partial
Match, Group Match or Tax-Based Group Match carries stored similarity
scores with `gstinScore ≥ 80` or `legalNameScore ≥ 70` or
`tradeNameScore ≥ 70`; in particular no Partial or Tax-Based Group record
ever has all three scores below those thresholds. -/
theorem strict_acceptance_invariant (input : List LedgerRecord)
    (e : LedgerRecord × MatchAnnotation)
    (hstat : e.2.status = Status.partialMatch ∨ e.2.status = Status.groupMatch ∨
      e.2.status = Status.taxBasedGroupMatch) :
    (e ∈ (runPipeline defaultConfig input).table → annAccepted e.2.scores) ∧
    (e ∈ (afterPlanner defaultConfig (runPipeline defaultConfig input)).table →
      annAccepted e.2.scores) := by
  constructor
  · intro he
    obtain ⟨sc, hsc, hacc⟩ := runPipeline_accepted defaultConfig input e he hstat
    rw [hsc]
    exact acceptB_default_annAccepted hacc
  · intro he
    obtain ⟨sc, hsc, hacc⟩ := planner_accepted defaultConfig _
      (runPipeline_accepted defaultConfig input) e he hstat
    rw [hsc]
    exact acceptB_default_annAccepted hacc

/-- Witness for `strict_acceptance_invariant`: the scenario-4 pair (same
identifier, different names) is classified Partial Match and its stored
scores pass the acceptance rule. -/
theorem strict_acceptance_invariant_witness : annAccepted pAnnW.scores := by
  have hex : exactPred bW4 gW4 = false := by decide
  have htax : |totalTax bW4 - totalTax gW4| ≤ defaultConfig.taxAmountTolerance := by
    show |totalTax bW4 - totalTax gW4| ≤ 10
    norm_num [totalTax, bW4, gW4]
  have hdate : |dateDiff bW4 gW4| ≤ defaultConfig.dateToleranceDays := by
    show |dateDiff bW4 gW4| ≤ 1
    norm_num [dateDiff, bW4, gW4]
  have hpp := @partialPred_of_id_eq bW4 gW4 rfl htax hdate
  have htab := runPipeline_pair_stage2 defaultConfig bW4 gW4 rfl rfl hex hpp
  have hmem : (bW4, pAnnW) ∈ (runPipeline defaultConfig [bW4, gW4]).table := by
    rw [htab]
    exact List.mem_cons_self _ _
  exact (strict_acceptance_invariant [bW4, gW4] (bW4, pAnnW) (Or.inl rfl)).1 hmem

/-- C2: the planner never decreases any match class and preserves the
report size.  Running `run_intelligent_enhanced_matching` once, or twice
in succession, never decreases the Exact, Partial, Group, Data-Entry-Swap
or Tax-Based-Group counts relative to the counts before the call, and the
number of rows of the final report never changes. -/
theorem enhanced_matching_monotone (cfg : ToleranceConfig) (input : List LedgerRecord) :
    ((get_results (runPipeline cfg input)).matched_count ≤
        (get_results (afterPlanner cfg (runPipeline cfg input))).matched_count ∧
      (get_results (runPipeline cfg input)).partial_count ≤
        (get_results (afterPlanner cfg (runPipeline cfg input))).partial_count ∧
      (get_results (runPipeline cfg input)).group_count ≤
        (get_results (afterPlanner cfg (runPipeline cfg input))).group_count ∧
      (get_results (runPipeline cfg input)).data_entry_swap_count ≤
        (get_results (afterPlanner cfg (runPipeline cfg input))).data_entry_swap_count ∧
      (get_results (runPipeline cfg input)).tax_based_group_count ≤
        (get_results (afterPlanner cfg (runPipeline cfg input))).tax_based_group_count ∧
      (get_results (afterPlanner cfg (runPipeline cfg input))).final_report.length =
        (get_results (runPipeline cfg input)).final_report.length) ∧
    ((get_results (runPipeline cfg input)).matched_count ≤
        (get_results (afterPlanner cfg (afterPlanner cfg
          (runPipeline cfg input)))).matched_count ∧
      (get_results (runPipeline cfg input)).partial_count ≤
        (get_results (afterPlanner cfg (afterPlanner cfg
          (runPipeline cfg input)))).partial_count ∧
      (get_results (runPipeline cfg input)).group_count ≤
        (get_results (afterPlanner cfg (afterPlanner cfg
          (runPipeline cfg input)))).group_count ∧
      (get_results (runPipeline cfg input)).data_entry_swap_count ≤
        (get_results (afterPlanner cfg (afterPlanner cfg
          (runPipeline cfg input)))).data_entry_swap_count ∧
      (get_results (runPipeline cfg input)).tax_based_group_count ≤
        (get_results (afterPlanner cfg (afterPlanner cfg
          (runPipeline cfg input)))).tax_based_group_count ∧
      (get_results (afterPlanner cfg (afterPlanner cfg
          (runPipeline cfg input)))).final_report.length =
        (get_results (runPipeline cfg input)).final_report.length) := by
  obtain ⟨m1, l1⟩ := planner_step cfg (runPipeline cfg input)
  obtain ⟨m2, l2⟩ := planner_step cfg (afterPlanner cfg (runPipeline cfg input))
  simp only [get_results]
  constructor
  · exact ⟨m1 _ (by decide) (by decide), m1 _ (by decide) (by decide),
      m1 _ (by decide) (by decide), m1 _ (by decide) (by decide),
      m1 _ (by decide) (by decide), l1⟩
  · exact ⟨le_trans (m1 _ (by decide) (by decide)) (m2 _ (by decide) (by decide)),
      le_trans (m1 _ (by decide) (by decide)) (m2 _ (by decide) (by decide)),
      le_trans (m1 _ (by decide) (by decide)) (m2 _ (by decide) (by decide)),
      le_trans (m1 _ (by decide) (by decide)) (m2 _ (by decide) (by decide)),
      le_trans (m1 _ (by decide) (by decide)) (m2 _ (by decide) (by decide)),
      l2.trans l1⟩

/-- C4 (amended): a Books record and a GSTR-2A record with exactly equal
supplier identifiers, whose signed tax totals agree within
`taxAmountTolerance` and whose dates agree within `dateToleranceDays`,
are never both left unmatched (Books Only / GSTR-2A Only) in any dataset;
and in the dataset consisting of exactly that pair, both records receive
Exact Match or Partial Match, even with completely different names. -/
theorem identifier_equal_pair_matched (b g : LedgerRecord)
    (hb : b.source = Source.books) (hg : g.source = Source.gstr2a)
    (hid : b.supplierId = g.supplierId)
    (htax : |totalTax b - totalTax g| ≤ defaultConfig.taxAmountTolerance)
    (hdate : |dateDiff b g| ≤ defaultConfig.dateToleranceDays) :
    (∀ (input : List LedgerRecord) (ab ag : MatchAnnotation),
        (b, ab) ∈ (runPipeline defaultConfig input).table →
        (g, ag) ∈ (runPipeline defaultConfig input).table →
        ¬(ab.status = Status.booksOnly ∧ ag.status = Status.gstr2aOnly)) ∧
    (∀ a : MatchAnnotation, (b, a) ∈ (runPipeline defaultConfig [b, g]).table →
        a.status = Status.exactMatch ∨ a.status = Status.partialMatch) ∧
    (∀ a : MatchAnnotation, (g, a) ∈ (runPipeline defaultConfig [b, g]).table →
        a.status = Status.exactMatch ∨ a.status = Status.partialMatch) := by
  have hpp := partialPred_of_id_eq hid htax hdate
  have hne : b ≠ g := by
    intro h
    rw [h] at hb
    exact Source.noConfusion (hg.symm.trans hb)
  refine ⟨?_, ?_, ?_⟩
  · intro input ab ag hmb hmg ⟨hsb, hsg⟩
    exact runPipeline_not_both_only defaultConfig input hpp hmb hsb hmg hsg
  · intro a ha
    by_cases hex : exactPred b g = true
    · rw [runPipeline_pair_exact defaultConfig b g hb hg hex] at ha
      rcases List.mem_cons.mp ha with h1 | h2
      · injection h1 with h1a h1b
        left
        rw [h1b]
      · rcases List.mem_cons.mp h2 with h3 | h4
        · injection h3 with h3a h3b
          exact absurd h3a hne
        · simp at h4
    · have hex' : exactPred b g = false := by
        revert hex; cases exactPred b g <;> simp
      rw [runPipeline_pair_stage2 defaultConfig b g hb hg hex' hpp] at ha
      rcases List.mem_cons.mp ha with h1 | h2
      · injection h1 with h1a h1b
        right
        rw [h1b]
      · rcases List.mem_cons.mp h2 with h3 | h4
        · injection h3 with h3a h3b
          exact absurd h3a hne
        · simp at h4
  · intro a ha
    by_cases hex : exactPred b g = true
    · rw [runPipeline_pair_exact defaultConfig b g hb hg hex] at ha
      rcases List.mem_cons.mp ha with h1 | h2
      · injection h1 with h1a h1b
        exact absurd h1a hne.symm
      · rcases List.mem_cons.mp h2 with h3 | h4
        · injection h3 with h3a h3b
          left
          rw [h3b]
        · simp at h4
    · have hex' : exactPred b g = false := by
        revert hex; cases exactPred b g <;> simp
      rw [runPipeline_pair_stage2 defaultConfig b g hb hg hex' hpp] at ha
      rcases List.mem_cons.mp ha with h1 | h2
      · injection h1 with h1a h1b
        exact absurd h1a hne.symm
      · rcases List.mem_cons.mp h2 with h3 | h4
        · injection h3 with h3a h3b
          right
          rw [h3b]
        · simp at h4

/-- Counterexample to C4 as stated: `bX` and `gX` have exactly equal
supplier identifiers (and different names), yet the pipeline classifies
them Books Only and GSTR-2A Only, because their amounts disagree beyond
every tolerance — identifier equality alone does not guarantee an Exact
or Partial match. -/
theorem identifier_equal_pair_counterexample :
    bX.supplierId = gX.supplierId ∧
    bX.legalName ≠ gX.legalName ∧ bX.tradeName ≠ gX.tradeName ∧
    (runPipeline defaultConfig [bX, gX]).table =
      [(bX, ⟨Status.booksOnly, none, none, none, none⟩),
       (gX, ⟨Status.gstr2aOnly, none, none, none, none⟩)] := by
  refine ⟨rfl, by decide, by decide, ?_⟩
  have hex : exactPred bX gX = false := by decide
  have hsw : swapPred defaultConfig bX gX = false := by decide
  have hpp : partialPred defaultConfig bX gX = false := by
    unfold partialPred
    have hfar : ¬(|totalTax bX - totalTax gX| ≤ defaultConfig.taxAmountTolerance) := by
      show ¬(|totalTax bX - totalTax gX| ≤ 10)
      norm_num [totalTax, bX, gX]
    rw [decide_eq_false hfar]
    simp
  exact runPipeline_pair_none defaultConfig bX gX rfl rfl hex hpp hsw

/-- Witness for `identifier_equal_pair_matched`: on the scenario-4 pair
the pipeline's annotation exists in the table and its status is Exact or
Partial. -/
theorem identifier_equal_pair_matched_witness :
    (bW4, pAnnW) ∈ (runPipeline defaultConfig [bW4, gW4]).table ∧
    (pAnnW.status = Status.exactMatch ∨ pAnnW.status = Status.partialMatch) := by
  have hex : exactPred bW4 gW4 = false := by decide
  have htax : |totalTax bW4 - totalTax gW4| ≤ defaultConfig.taxAmountTolerance := by
    show |totalTax bW4 - totalTax gW4| ≤ 10
    norm_num [totalTax, bW4, gW4]
  have hdate : |dateDiff bW4 gW4| ≤ defaultConfig.dateToleranceDays := by
    show |dateDiff bW4 gW4| ≤ 1
    norm_num [dateDiff, bW4, gW4]
  have hpp := @partialPred_of_id_eq bW4 gW4 rfl htax hdate
  have htab := runPipeline_pair_stage2 defaultConfig bW4 gW4 rfl rfl hex hpp
  have hmem : (bW4, pAnnW) ∈ (runPipeline defaultConfig [bW4, gW4]).table := by
    rw [htab]
    exact List.mem_cons_self _ _
  exact ⟨hmem,
    (identifier_equal_pair_matched bW4 gW4 rfl rfl rfl htax hdate).2.1 pAnnW hmem⟩

end GSTRecon
